import Mathlib

/-!
# TrafficLightRouter: an adaptive traffic-signal controller

A shallow embedding of `src/application/router/TrafficLightRouter.cc` (VENTOS).

Conventions of the embedding.

* A C++ `double` is a rational number (`ℚ`): arithmetic is exact, so rounding, infinities
  and NaN are not represented (a division by zero is `0`, as in `ℚ`).
* A C++ `int` is an `Int` without wrap-around; `currentPhase`, which the code only ever
  uses as an index into `phases`, is a `Nat`.
* The object fields are the fields of a structure, methods take the object as `self` and
  return the new object.  Calls into the event kernel (`scheduleAt`) and into the SUMO
  backend (`TraCI->command...`) are returned as a list of `Effect`s, in program order.
* `simTime()` is an explicit argument; the read-only queries of `TraCI` are a record of
  functions, a snapshot of the traffic at the time of the call.
* Undefined behaviour of the C++ (indexing outside an array, `% 0`) is the result `none`.
* The classes `Net`, `Node`, `Edge`, `Lane` and the fields of `TrafficLightRouter` are
  declared in headers; here their fields are those the `.cc` file uses.  The pointers
  `TLEvent` and `TLSwitchEvent` to the last message created are not kept: the message is
  part of the `scheduleAt` effect.
-/

namespace VENTOS

/-- One signal phase: `Phase::Phase(double duration, string state)`. -/
structure Phase where
  duration : ℚ
  state : String
  deriving DecidableEq

/-- A lane of an incoming edge: its identifier and the phases that give it a green
(`vector<int> greenPhases`). -/
structure Lane where
  id : String
  greenPhases : List Int
  deriving DecidableEq

/-- An edge of the road network, with the fields the controller reads. -/
structure Edge where
  id : String
  lanes : List Lane
  length : ℚ
  speed : ℚ
  deriving DecidableEq

/-- A node of the road network: `net->nodes[id]->inEdges`. -/
structure Node where
  inEdges : List Edge

/-- The road network: the maps `net->nodes` and `net->edges`, as lookup functions. -/
structure Net where
  nodes : String → Node
  edges : String → Edge

/-- The queries of the live traffic source used by the controller. -/
structure TraCI where
  commandGetLaneVehicleList : String → List String
  commandGetVehicleSpeed : String → ℚ
  commandGetVehicleLanePosition : String → ℚ

/-- A self message of the module; only its name is inspected (`msg->isName`). -/
structure cMessage where
  name : String
  deriving DecidableEq

/-- The calls the controller makes to the event kernel and to the SUMO backend. -/
inductive Effect where
  | scheduleAt (t : ℚ) (msg : cMessage)
  | commandSetPhase (id : String) (phase : Nat)
  | commandSetPhaseDurationRemaining (id : String) (duration : Int)
  deriving DecidableEq

/-- The fields of `class TrafficLightRouter`. -/
structure TrafficLightRouter where
  id : String
  type : String
  programID : String
  offset : ℚ
  phases : List Phase
  net : Net
  done : Bool
  currentPhase : Nat
  lastSwitchTime : ℚ
  cycleDuration : ℚ
  nonTransitionalCycleDuration : ℚ
  TLLogicMode : Int
  HighDensityRecalculateFrequency : ℚ
  LowDensityExtendTime : ℚ
  MaxPhaseDuration : ℚ

/-- The loop of `build` (lines 39-44) from index `i` on: every duration is added to
`cycleDuration`, those at even indices also to `nonTransitionalCycleDuration`. -/
def buildLoop : List Phase → Nat → ℚ × ℚ → ℚ × ℚ
  | [], _, acc => acc
  | p :: ps, i, (cycle, nonTrans) =>
      buildLoop ps (i + 1)
        (cycle + p.duration, if i % 2 = 0 then nonTrans + p.duration else nonTrans)

/-- `TrafficLightRouter::build` (lines 24-45). -/
def TrafficLightRouter.build (self : TrafficLightRouter) (id type programID : String)
    (offset : ℚ) (phases : List Phase) (net : Net) : TrafficLightRouter :=
  let totals := buildLoop phases 0 (0, 0)
  { self with
    id := id, type := type, programID := programID, offset := offset,
    phases := phases, net := net,
    done := false, currentPhase := 0, lastSwitchTime := 0,
    cycleDuration := totals.1, nonTransitionalCycleDuration := totals.2 }

/-- The innermost loop of `HighDensityRecalculate` (lines 127-132): for each entry `it` of
`greenPhases`, `phaseVehicleCounts[it] += vehCount; total += vehCount`.  An entry that is
not an index of the array is undefined behaviour. -/
def addGreenPhases (vehCount : Int) : List Int → List ℚ × Int → Option (List ℚ × Int)
  | [], acc => some acc
  | it :: rest, (counts, total) =>
      if 0 ≤ it ∧ it.toNat < counts.length then
        addGreenPhases vehCount rest
          (counts.set it.toNat (counts.getD it.toNat 0 + (vehCount : ℚ)), total + vehCount)
      else none

/-- The loop over the lanes of one edge (lines 123-133). -/
def addLanes (traci : TraCI) : List Lane → List ℚ × Int → Option (List ℚ × Int)
  | [], acc => some acc
  | lane :: rest, acc =>
      let vehicleIDs := traci.commandGetLaneVehicleList lane.id
      let vehCount : Int := (vehicleIDs.length : Int)
      match addGreenPhases vehCount lane.greenPhases acc with
      | none => none
      | some acc1 => addLanes traci rest acc1

/-- The loop over the incoming edges (lines 120-134). -/
def addEdges (traci : TraCI) : List Edge → List ℚ × Int → Option (List ℚ × Int)
  | [], acc => some acc
  | edge :: rest, acc =>
      match addLanes traci edge.lanes acc with
      | none => none
      | some acc1 => addEdges traci rest acc1

/-- The body of the redistribution loop for one even phase (lines 143-146). -/
def newDuration (count : ℚ) (total : Int) (nonTransitionalCycleDuration : ℚ) : ℚ :=
  let portion := (count / (total : ℚ)) * 2
  let duration := portion * nonTransitionalCycleDuration
  if duration < 3 then 3 else duration

/-- The redistribution loop (lines 139-151) from index `i` on. -/
def setDurations (counts : List ℚ) (total : Int) (nonTransitionalCycleDuration : ℚ) :
    List Phase → Nat → List Phase
  | [], _ => []
  | p :: ps, i =>
      (if i % 2 = 0 then
        { p with duration := newDuration (counts.getD i 0) total nonTransitionalCycleDuration }
      else p) :: setDurations counts total nonTransitionalCycleDuration ps (i + 1)

/-- The histogram of `HighDensityRecalculate` (lines 114-134): the per-phase counts,
initialised to `0`, and `total`. -/
def TrafficLightRouter.phaseVehicleCounts (self : TrafficLightRouter) (traci : TraCI) :
    Option (List ℚ × Int) :=
  addEdges traci (self.net.nodes self.id).inEdges (List.replicate self.phases.length 0, 0)

/-- `TrafficLightRouter::HighDensityRecalculate` (lines 112-153). -/
def TrafficLightRouter.HighDensityRecalculate (self : TrafficLightRouter) (traci : TraCI) :
    Option TrafficLightRouter :=
  match self.phaseVehicleCounts traci with
  | none => none
  | some (counts, total) =>
      if total > 0 then
        some { self with
          phases := setDurations counts total self.nonTransitionalCycleDuration self.phases 0 }
      else some self

/-- The test on one vehicle in `LowDensityRecalculate` (lines 178-187). -/
def vehicleBenefits (self : TrafficLightRouter) (traci : TraCI) (edge : Edge)
    (vehicle : String) : Bool :=
  decide (traci.commandGetVehicleSpeed vehicle > 1 / 100) &&
    (let pos := traci.commandGetVehicleLanePosition vehicle
     let length := (self.net.edges edge.id).length
     let speed := (self.net.edges edge.id).speed
     let timeLeft := (length - pos) / speed
     decide (timeLeft < self.LowDensityExtendTime))

/-- `TrafficLightRouter::LowDensityRecalculate` (lines 155-194): the nested loops return
`true` at the first vehicle that passes the test, `false` when none does. -/
def TrafficLightRouter.LowDensityRecalculate (self : TrafficLightRouter) (traci : TraCI) :
    Bool :=
  (self.net.nodes self.id).inEdges.any fun edge =>
    edge.lanes.any fun lane =>
      decide ((self.currentPhase : Int) ∈ lane.greenPhases) &&
        (traci.commandGetLaneVehicleList lane.id).any fun vehicle =>
          vehicleBenefits self traci edge vehicle

/-- The module parameters read by `initialize` through `par(...)`. -/
structure Params where
  TLLogicMode : Int
  HighDensityRecalculateFrequency : ℚ
  LowDensityExtendTime : ℚ
  MaxPhaseDuration : ℚ

/-- `TrafficLightRouter::finish` (lines 196-199). -/
def TrafficLightRouter.finish (self : TrafficLightRouter) : TrafficLightRouter :=
  { self with done := true }

/-- The self message of the recalculation timer. -/
def tlEvt : cMessage := ⟨"tl evt"⟩

/-- The self message of the phase-switch timer. -/
def tlSwitchEvt : cMessage := ⟨"tl switch evt"⟩

/-- The condition of line 92, evaluated left to right. -/
def TrafficLightRouter.switchDelayed (self : TrafficLightRouter) (simTime : ℚ) (traci : TraCI) :
    Bool :=
  decide (self.TLLogicMode = 2) && decide (self.currentPhase % 2 = 0) &&
    decide (simTime - self.lastSwitchTime < self.MaxPhaseDuration) &&
    self.LowDensityRecalculate traci

/-- `TrafficLightRouter::handleMessage` (lines 77-110) at simulation time `simTime`. -/
def TrafficLightRouter.handleMessage (self : TrafficLightRouter) (msg : cMessage)
    (simTime : ℚ) (traci : TraCI) : Option (TrafficLightRouter × List Effect) :=
  if !self.done then
    if msg.name = "tl evt" then
      if self.TLLogicMode = 1 then
        match self.HighDensityRecalculate traci with
        | none => none
        | some s =>
            some (s, [Effect.scheduleAt (simTime + s.HighDensityRecalculateFrequency) tlEvt])
      else some (self, [])
    else if msg.name = "tl switch evt" then
      if self.switchDelayed simTime traci then
        some (self,
          [Effect.scheduleAt (simTime + self.LowDensityExtendTime) tlSwitchEvt,
           Effect.commandSetPhaseDurationRemaining self.id 10000000])
      else if self.phases.length = 0 then none
      else
        let s := { self with
          lastSwitchTime := simTime,
          currentPhase := (self.currentPhase + 1) % self.phases.length }
        match s.phases[s.currentPhase]? with
        | none => none
        | some phase =>
            some (s,
              [Effect.commandSetPhase s.id s.currentPhase,
               Effect.scheduleAt (simTime + phase.duration) tlSwitchEvt,
               Effect.commandSetPhaseDurationRemaining s.id 10000000])
    else some (self, [])
  else some (self, [])

/-- Conversion of a `double` to an `int`: the fractional part is discarded (truncation
toward zero). -/
def toInt (x : ℚ) : Int := if 0 ≤ x then ⌊x⌋ else ⌈x⌉

/-- The `while` loop of `currentPhaseAtTime` (lines 240-244), run for at most `fuel`
tests of its condition; `curTime` is an `int`, so `curTime += duration` truncates. -/
def currentPhaseAtTimeLoop (phases : List Phase) (time : ℚ) : Nat → Nat → Int → Option (Nat × Int)
  | 0, _, _ => none
  | fuel + 1, phase, curTime =>
      if time ≥ (curTime : ℚ) then
        let next := (phase + 1) % phases.length
        match phases[next]? with
        | none => none
        | some p => currentPhaseAtTimeLoop phases time fuel next (toInt ((curTime : ℚ) + p.duration))
      else some (phase, curTime)

/-- `TrafficLightRouter::currentPhaseAtTime` (lines 236-249): the returned phase and the
value stored in `*timeRemaining`; `none` when `fuel` tests do not end the loop. -/
def TrafficLightRouter.currentPhaseAtTime (self : TrafficLightRouter) (time : ℚ)
    (fuel : Nat) : Option (Nat × ℚ) :=
  match self.phases[self.currentPhase]? with
  | none => none
  | some p =>
      match currentPhaseAtTimeLoop self.phases time fuel self.currentPhase
          (toInt (self.lastSwitchTime + p.duration)) with
      | none => none
      | some (phase, curTime) => some (phase, (curTime : ℚ) - time)

/-- `TrafficLightRouter::initialize` (lines 47-75) at simulation time `simTime`. -/
def TrafficLightRouter.initialize (self : TrafficLightRouter) (stage : Int) (par : Params)
    (simTime : ℚ) : Option (TrafficLightRouter × List Effect) :=
  if self.id = "" then some (self, [])
  else if stage = 0 then
    let s := { self with
      TLLogicMode := par.TLLogicMode,
      HighDensityRecalculateFrequency := par.HighDensityRecalculateFrequency,
      LowDensityExtendTime := par.LowDensityExtendTime,
      MaxPhaseDuration := par.MaxPhaseDuration }
    if s.TLLogicMode = 1 then
      match s.phases[0]? with
      | none => none
      | some phase =>
          some (s,
            [Effect.scheduleAt (simTime + s.HighDensityRecalculateFrequency) tlEvt,
             Effect.scheduleAt phase.duration tlSwitchEvt])
    else if s.TLLogicMode = 2 then
      match s.phases[0]? with
      | none => none
      | some phase => some (s, [Effect.scheduleAt phase.duration tlSwitchEvt])
    else some (s, [])
  else some (self, [])

/-- A timer event delivered to the module: the message, the simulation time of the
delivery and the traffic at that time. -/
structure Event where
  msg : cMessage
  time : ℚ
  traci : TraCI

/-- The module handles the events of a list one after the other; the effects are
collected in order. -/
def handleMessages : TrafficLightRouter → List Event → Option (TrafficLightRouter × List Effect)
  | self, [] => some (self, [])
  | self, ev :: rest =>
      match self.handleMessage ev.msg ev.time ev.traci with
      | none => none
      | some (s, effects) =>
          match handleMessages s rest with
          | none => none
          | some (s1, effects1) => some (s1, effects ++ effects1)

/-- The effects that arm a timer with the message `msg`. -/
def timersOf (msg : cMessage) (effects : List Effect) : List ℚ :=
  effects.filterMap fun e =>
    match e with
    | Effect.scheduleAt t m => if m = msg then some t else none
    | _ => none

/-- The phase indices passed to `commandSetPhase`. -/
def phasesSet (effects : List Effect) : List Nat :=
  effects.filterMap fun e =>
    match e with
    | Effect.commandSetPhase _ phase => some phase
    | _ => none

/-- The phase-switch timer fires at time `t`; the traffic at the `k`-th firing is
`traffic k`.  Whenever the handler re-arms the timer without issuing `commandSetPhase`,
the timer fires again at the armed time.  The result is the time of the firing at which
the handler switches the phase (`none` when this does not happen within `fuel` firings). -/
def switchTime (traffic : Nat → TraCI) :
    Nat → TrafficLightRouter → Nat → ℚ → Option ℚ
  | 0, _, _, _ => none
  | fuel + 1, self, k, t =>
      match self.handleMessage tlSwitchEvt t (traffic k) with
      | none => none
      | some (s, effects) =>
          match phasesSet effects, timersOf tlSwitchEvt effects with
          | _ :: _, _ => some t
          | [], [t1] => switchTime traffic fuel s (k + 1) t1
          | [], _ => none

/-- The phase-switch timer is delivered `n` times: first at time `t`, then each time at
the time armed by the handler at the previous delivery; the traffic at the `k`-th
delivery is `traffic k`.  The result lists the time and the effects of each delivery. -/
def deliverSwitch (traffic : Nat → TraCI) :
    Nat → TrafficLightRouter → Nat → ℚ → Option (List (ℚ × List Effect))
  | 0, _, _, _ => some []
  | n + 1, self, k, t =>
      match self.handleMessage tlSwitchEvt t (traffic k) with
      | none => none
      | some (s, effects) =>
          match timersOf tlSwitchEvt effects with
          | [t1] =>
              match deliverSwitch traffic n s (k + 1) t1 with
              | none => none
              | some rest => some ((t, effects) :: rest)
          | _ => none

/-- A call of the simulation kernel into the module after `build`. -/
inductive Call where
  | init (stage : Int) (par : Params) (simTime : ℚ)
  | handleMessage (msg : cMessage) (simTime : ℚ) (traci : TraCI)
  | finish

/-- The controller after one call of the kernel (the effects are dropped). -/
def TrafficLightRouter.call (self : TrafficLightRouter) : Call → Option TrafficLightRouter
  | Call.init stage par simTime =>
      Option.map Prod.fst <| TrafficLightRouter.initialize self stage par simTime
  | Call.handleMessage msg simTime traci =>
      (self.handleMessage msg simTime traci).map Prod.fst
  | Call.finish => some self.finish

/-- The controller after a sequence of calls of the kernel. -/
def calls : TrafficLightRouter → List Call → Option TrafficLightRouter
  | self, [] => some self
  | self, c :: rest =>
      match self.call c with
      | none => none
      | some s => calls s rest

/-- `HighDensityRecalculate` is run once for each traffic snapshot of the list, in order. -/
def recalculations : TrafficLightRouter → List TraCI → Option TrafficLightRouter
  | self, [] => some self
  | self, traci :: rest =>
      match self.HighDensityRecalculate traci with
      | none => none
      | some s => recalculations s rest

/-! ## Quantities named by the specification -/

/-- The duration of the phase at index `i` (`0` when there is no such phase). -/
def durationAt (phases : List Phase) (i : Nat) : ℚ :=
  match phases[i]? with
  | some p => p.duration
  | none => 0

/-- The sum of all phase durations. -/
def sumDurations (phases : List Phase) : ℚ := (phases.map Phase.duration).sum

/-- The sum of the durations of the phases at even indices. -/
def sumEvenDurations (phases : List Phase) : ℚ :=
  ∑ i ∈ Finset.range phases.length, if i % 2 = 0 then durationAt phases i else 0

/-- The sum, over the phases of `ps`, of the durations of those whose index shifted by
`k` is even. -/
def sumEvenFrom (k : Nat) (ps : List Phase) : ℚ :=
  ∑ j ∈ Finset.range ps.length, if (k + j) % 2 = 0 then durationAt ps j else 0

/-- The value of `duration` in `HighDensityRecalculate` before the floor of line 145:
`(count / total) * 2 * nonTransitionalCycleDuration` (lines 143-144). -/
def proportionalDuration (count : ℚ) (total : Int) (nonTransitionalCycleDuration : ℚ) : ℚ :=
  (count / (total : ℚ)) * 2 * nonTransitionalCycleDuration

/-- The sum of the counts of a histogram at the even indices. -/
def sumEvenCounts (counts : List ℚ) : ℚ :=
  ∑ i ∈ Finset.range counts.length, if i % 2 = 0 then counts.getD i 0 else 0

/-- The sum over the even indices of the durations before the floor. -/
def sumEvenProportional (counts : List ℚ) (total : Int) (nonTransitionalCycleDuration : ℚ) :
    ℚ :=
  ∑ i ∈ Finset.range counts.length,
    if i % 2 = 0 then
      proportionalDuration (counts.getD i 0) total nonTransitionalCycleDuration
    else 0

/-- The sum of the durations of the first `k` phases, taken cyclically from index 0. -/
def cyclicSum (phases : List Phase) (k : Nat) : ℚ :=
  ∑ j ∈ Finset.range k, durationAt phases (j % phases.length)

/-- The lanes of all incoming edges of the intersection. -/
def incomingLanes (self : TrafficLightRouter) : List Lane :=
  (self.net.nodes self.id).inEdges.flatMap Edge.lanes

/-- The number of vehicles on a lane. -/
def vehiclesOn (traci : TraCI) (lane : Lane) : Int :=
  ((traci.commandGetLaneVehicleList lane.id).length : Int)

/-- The sum over the given lanes of (vehicles on the lane) x (occurrences of `p` in the
green-phase list of the lane). -/
def lanesDemand (traci : TraCI) (p : Nat) (lanes : List Lane) : Int :=
  (lanes.map fun lane =>
    vehiclesOn traci lane * (lane.greenPhases.count (p : Int) : Int)).sum

/-- The sum of all contributions of the given lanes: each lane contributes its number of
vehicles once for every entry of its green-phase list. -/
def lanesTotal (traci : TraCI) (lanes : List Lane) : Int :=
  (lanes.map fun lane => vehiclesOn traci lane * (lane.greenPhases.length : Int)).sum

/-- The count of phase `p` over the incoming lanes of the intersection. -/
def phaseDemand (self : TrafficLightRouter) (traci : TraCI) (p : Nat) : Int :=
  lanesDemand traci p (incomingLanes self)

/-- The total of the contributions of the incoming lanes of the intersection. -/
def totalDemand (self : TrafficLightRouter) (traci : TraCI) : Int :=
  lanesTotal traci (incomingLanes self)

/-- Every green-phase entry of the lanes is an index into a plan of `n` phases. -/
def greenPhasesInRange (lanes : List Lane) (n : Nat) : Prop :=
  ∀ lane ∈ lanes, ∀ it ∈ lane.greenPhases, 0 ≤ it ∧ it < (n : Int)

/-! ## Concrete scenarios -/

/-- A network with one node: whatever the identifier, the given incoming edges; an edge
identifier is looked up among them. -/
def netOf (inEdges : List Edge) : Net where
  nodes := fun _ => ⟨inEdges⟩
  edges := fun id => (inEdges.find? fun e => e.id = id).getD ⟨id, [], 0, 0⟩

/-- A controller object before `build` and `initialize`. -/
def blank : TrafficLightRouter where
  id := ""
  type := ""
  programID := ""
  offset := 0
  phases := []
  net := netOf []
  done := false
  currentPhase := 0
  lastSwitchTime := 0
  cycleDuration := 0
  nonTransitionalCycleDuration := 0
  TLLogicMode := 0
  HighDensityRecalculateFrequency := 0
  LowDensityExtendTime := 0
  MaxPhaseDuration := 0

/-- A four-phase plan: two green phases of 10 s, each followed by 3 s of yellow. -/
def plan4 : List Phase := [⟨10, "G"⟩, ⟨3, "y"⟩, ⟨10, "g"⟩, ⟨3, "Y"⟩]

/-- An intersection with one incoming edge of length 100 and speed 10, whose lane `a`
is green in phase 0 and whose lane `b` is green in phase 2. -/
def crossing : Net := netOf [⟨"e", [⟨"a", [0]⟩, ⟨"b", [2]⟩], 100, 10⟩]

/-- The controller of `crossing` after `build` with `plan4`. -/
def built4 : TrafficLightRouter := blank.build "n" "static" "0" 0 plan4 crossing

/-- One vehicle, on lane `a` at position 80 with speed 10: 2 s from the stop line. -/
def oneVehicle : TraCI where
  commandGetLaneVehicleList := fun lane => if lane = "a" then ["v"] else []
  commandGetVehicleSpeed := fun _ => 10
  commandGetVehicleLanePosition := fun _ => 80

/-- Eight vehicles on lane `a` and two on lane `b`, all standing. -/
def tenVehicles : TraCI where
  commandGetLaneVehicleList := fun lane =>
    if lane = "a" then ["1", "2", "3", "4", "5", "6", "7", "8"]
    else if lane = "b" then ["9", "10"] else []
  commandGetVehicleSpeed := fun _ => 0
  commandGetVehicleLanePosition := fun _ => 0

/-- No vehicle anywhere. -/
def noVehicle : TraCI where
  commandGetLaneVehicleList := fun _ => []
  commandGetVehicleSpeed := fun _ => 0
  commandGetVehicleLanePosition := fun _ => 0

/-- The controller of `crossing` in mode 2 (low-density extension), with an extension
window of 5 s and a maximal phase duration of 12 s. -/
def lowDensity4 : TrafficLightRouter :=
  { built4 with TLLogicMode := 2, LowDensityExtendTime := 5, MaxPhaseDuration := 12 }

/-- The controller of `crossing` in mode 1 (high-density redistribution), recalculating
every 30 s. -/
def highDensity4 : TrafficLightRouter :=
  { built4 with
    TLLogicMode := 1, HighDensityRecalculateFrequency := 30,
    LowDensityExtendTime := 5, MaxPhaseDuration := 12 }

/-- A controller in phase 0 since time 0, with a plan of durations 10.5 s and 3 s. -/
def fractional2 : TrafficLightRouter :=
  { blank with phases := [⟨21 / 2, "G"⟩, ⟨3, "y"⟩], id := "n" }

/-- The controller `highDensity4` with the durations 32, 3, 8, 3. -/
def recalculated4 : TrafficLightRouter :=
  { highDensity4 with phases := [⟨32, "G"⟩, ⟨3, "y"⟩, ⟨8, "g"⟩, ⟨3, "Y"⟩] }

/-- The plan of two phases: 10 s of green, 3 s of yellow. -/
def plan2 : List Phase := [⟨10, "G"⟩, ⟨3, "Y"⟩]

/-- The controller after `build` with `plan2`, for an intersection without incoming
edges. -/
def built2 : TrafficLightRouter := blank.build "n" "static" "0" 0 plan2 (netOf [])

/-- A controller in phase 0 since time 0, with a plan of two phases of half a second. -/
def subSecond2 : TrafficLightRouter :=
  { blank with phases := [⟨1 / 2, "G"⟩, ⟨1 / 2, "y"⟩], id := "n" }

/-! ## Auxiliary lemmas -/

theorem durationAt_cons_succ (p : Phase) (ps : List Phase) (j : Nat) :
    durationAt (p :: ps) (j + 1) = durationAt ps j := by
  simp [durationAt]

theorem durationAt_cons_zero (p : Phase) (ps : List Phase) :
    durationAt (p :: ps) 0 = p.duration := by
  simp [durationAt]

theorem sumEvenFrom_cons (k : Nat) (p : Phase) (ps : List Phase) :
    sumEvenFrom k (p :: ps) =
      (if k % 2 = 0 then p.duration else 0) + sumEvenFrom (k + 1) ps := by
  unfold sumEvenFrom
  rw [List.length_cons, Finset.sum_range_succ', add_comm]
  congr 1
  · simp [durationAt_cons_zero]
  · refine Finset.sum_congr rfl fun j _ => ?_
    rw [durationAt_cons_succ]
    have h : k + (j + 1) = k + 1 + j := by omega
    rw [h]

theorem sumEvenFrom_zero (ps : List Phase) : sumEvenFrom 0 ps = sumEvenDurations ps := by
  simp [sumEvenFrom, sumEvenDurations]

theorem buildLoop_eq (ps : List Phase) (i : Nat) (cycle nonTrans : ℚ) :
    buildLoop ps i (cycle, nonTrans) =
      (cycle + sumDurations ps, nonTrans + sumEvenFrom i ps) := by
  induction ps generalizing i cycle nonTrans with
  | nil => simp [buildLoop, sumDurations, sumEvenFrom]
  | cons p ps ih =>
    rw [buildLoop, ih, sumEvenFrom_cons]
    have hs : sumDurations (p :: ps) = p.duration + sumDurations ps := by
      simp [sumDurations]
    rw [hs]
    by_cases h : i % 2 = 0
    · simp only [h, if_true]
      refine Prod.ext ?_ ?_ <;> simp <;> ring
    · simp only [h, if_false]
      refine Prod.ext ?_ ?_ <;> simp
      ring

theorem getD_set (counts : List ℚ) (k p : Nat) (x : ℚ) (h : k < counts.length) :
    (counts.set k x).getD p 0 = if p = k then x else counts.getD p 0 := by
  simp only [List.getD_eq_getElem?_getD, List.getElem?_set, h, if_true]
  by_cases hp : p = k
  · subst hp
    simp
  · have hk : ¬ k = p := fun e => hp e.symm
    simp [hp, hk]

theorem addGreenPhases_eq (v : Int) (gp : List Int) (counts : List ℚ) (total : Int)
    (h : ∀ it ∈ gp, 0 ≤ it ∧ it < (counts.length : Int)) :
    ∃ counts1, addGreenPhases v gp (counts, total) =
        some (counts1, total + v * (gp.length : Int)) ∧
      counts1.length = counts.length ∧
      ∀ p : Nat, counts1.getD p 0 = counts.getD p 0 + (v : ℚ) * (gp.count (p : Int) : ℚ) := by
  induction gp generalizing counts total with
  | nil => exact ⟨counts, by simp [addGreenPhases], rfl, by simp⟩
  | cons it rest ih =>
    have hit := h it (List.mem_cons_self _ _)
    have hk : it.toNat < counts.length := by omega
    have hrest : ∀ x ∈ rest, 0 ≤ x ∧
        x < (((counts.set it.toNat (counts.getD it.toNat 0 + (v : ℚ))).length : Nat) : Int) := by
      intro x hx
      rw [List.length_set]
      exact h x (List.mem_cons_of_mem _ hx)
    obtain ⟨c1, h1, h2, h3⟩ := ih _ (total + v) hrest
    refine ⟨c1, ?_, ?_, ?_⟩
    · rw [addGreenPhases, if_pos ⟨hit.1, hk⟩, h1]
      simp only [List.length_cons]
      push_cast
      congr 2
      ring
    · rw [h2, List.length_set]
    · intro p
      rw [h3 p, getD_set _ _ _ _ hk, List.count_cons]
      by_cases hp : p = it.toNat
      · have hb : (it == (p : Int)) = true := by
          simp only [beq_iff_eq]
          omega
        subst hp
        simp only [if_true, hb]
        push_cast
        ring
      · have hb : ¬ ((it == (p : Int)) = true) := by
          simp only [beq_iff_eq]
          omega
        simp only [hp, if_false, hb]
        push_cast
        ring

theorem addLanes_eq (traci : TraCI) (lanes : List Lane) (counts : List ℚ) (total : Int)
    (h : greenPhasesInRange lanes counts.length) :
    ∃ counts1, addLanes traci lanes (counts, total) =
        some (counts1, total + lanesTotal traci lanes) ∧
      counts1.length = counts.length ∧
      ∀ p : Nat, counts1.getD p 0 = counts.getD p 0 + (lanesDemand traci p lanes : ℚ) := by
  induction lanes generalizing counts total with
  | nil => exact ⟨counts, by simp [addLanes, lanesTotal], rfl, by simp [lanesDemand]⟩
  | cons lane rest ih =>
    obtain ⟨c1, h1, h2, h3⟩ := addGreenPhases_eq (vehiclesOn traci lane) lane.greenPhases
      counts total (h lane (List.mem_cons_self _ _))
    have hrest : greenPhasesInRange rest c1.length := by
      intro l hl
      rw [h2]
      exact h l (List.mem_cons_of_mem _ hl)
    obtain ⟨c2, k1, k2, k3⟩ := ih c1 (total + vehiclesOn traci lane * lane.greenPhases.length)
      hrest
    refine ⟨c2, ?_, by rw [k2, h2], ?_⟩
    · have h1a : addGreenPhases ((traci.commandGetLaneVehicleList lane.id).length : Int)
          lane.greenPhases (counts, total) =
          some (c1, total + vehiclesOn traci lane * lane.greenPhases.length) := h1
      simp only [addLanes, h1a, k1, lanesTotal, List.map_cons, List.sum_cons, add_assoc]
    · intro p
      rw [k3 p, h3 p]
      simp only [lanesDemand, List.map_cons, List.sum_cons]
      push_cast
      ring

theorem addEdges_eq (traci : TraCI) (edges : List Edge) (counts : List ℚ) (total : Int)
    (h : greenPhasesInRange (edges.flatMap Edge.lanes) counts.length) :
    ∃ counts1, addEdges traci edges (counts, total) =
        some (counts1, total + lanesTotal traci (edges.flatMap Edge.lanes)) ∧
      counts1.length = counts.length ∧
      ∀ p : Nat, counts1.getD p 0 =
        counts.getD p 0 + (lanesDemand traci p (edges.flatMap Edge.lanes) : ℚ) := by
  induction edges generalizing counts total with
  | nil => exact ⟨counts, by simp [addEdges, lanesTotal], rfl, by simp [lanesDemand]⟩
  | cons edge rest ih =>
    have hsplit : (edge :: rest).flatMap Edge.lanes = edge.lanes ++ rest.flatMap Edge.lanes := by
      simp [List.flatMap]
    rw [hsplit] at h ⊢
    obtain ⟨c1, h1, h2, h3⟩ := addLanes_eq traci edge.lanes counts total
      (fun l hl => h l (List.mem_append_left _ hl))
    have hrest : greenPhasesInRange (rest.flatMap Edge.lanes) c1.length := by
      intro l hl
      rw [h2]
      exact h l (List.mem_append_right _ hl)
    obtain ⟨c2, k1, k2, k3⟩ := ih c1 (total + lanesTotal traci edge.lanes) hrest
    refine ⟨c2, ?_, by rw [k2, h2], ?_⟩
    · have ht : lanesTotal traci (edge.lanes ++ rest.flatMap Edge.lanes) =
          lanesTotal traci edge.lanes + lanesTotal traci (rest.flatMap Edge.lanes) := by
        simp [lanesTotal]
      simp only [addEdges, h1, k1, ht, add_assoc]
    · intro p
      rw [k3 p, h3 p]
      simp only [lanesDemand, List.map_append, List.sum_append]
      push_cast
      ring

theorem setDurations_length (counts : List ℚ) (total : Int) (n : ℚ) (ps : List Phase)
    (k : Nat) : (setDurations counts total n ps k).length = ps.length := by
  induction ps generalizing k with
  | nil => rfl
  | cons p ps ih => simp [setDurations, ih]

theorem durationAt_setDurations (counts : List ℚ) (total : Int) (n : ℚ) (ps : List Phase)
    (k j : Nat) (hj : j < ps.length) :
    durationAt (setDurations counts total n ps k) j =
      if (k + j) % 2 = 0 then newDuration (counts.getD (k + j) 0) total n
      else durationAt ps j := by
  induction ps generalizing k j with
  | nil => simp at hj
  | cons p ps ih =>
    cases j with
    | zero =>
      by_cases hk : k % 2 = 0 <;> simp [setDurations, durationAt_cons_zero, hk]
    | succ j =>
      have hj1 : j < ps.length := by simpa using hj
      rw [setDurations, durationAt_cons_succ, durationAt_cons_succ, ih (k + 1) j hj1]
      have e : k + 1 + j = k + (j + 1) := by omega
      rw [e]

theorem newDuration_eq_max (count : ℚ) (total : Int) (n : ℚ) :
    newDuration count total n = max (count / (total : ℚ) * 2 * n) 3 := by
  unfold newDuration
  by_cases h : count / (total : ℚ) * 2 * n < 3
  · simp [h, max_eq_right (le_of_lt h)]
  · simp [h, max_eq_left (not_lt.mp h)]

theorem phaseVehicleCounts_eq (self : TrafficLightRouter) (traci : TraCI)
    (h : greenPhasesInRange (incomingLanes self) self.phases.length) :
    ∃ counts, self.phaseVehicleCounts traci = some (counts, totalDemand self traci) ∧
      counts.length = self.phases.length ∧
      ∀ p : Nat, counts.getD p 0 = (phaseDemand self traci p : ℚ) := by
  have h0 : greenPhasesInRange ((self.net.nodes self.id).inEdges.flatMap Edge.lanes)
      (List.replicate self.phases.length (0 : ℚ)).length := by
    rw [List.length_replicate]
    exact h
  obtain ⟨c, h1, h2, h3⟩ := addEdges_eq traci (self.net.nodes self.id).inEdges
    (List.replicate self.phases.length (0 : ℚ)) 0 h0
  refine ⟨c, ?_, by rw [h2, List.length_replicate], ?_⟩
  · rw [TrafficLightRouter.phaseVehicleCounts, h1]
    simp [totalDemand, incomingLanes]
  · intro p
    rw [h3 p]
    have hz : (List.replicate self.phases.length (0 : ℚ)).getD p 0 = 0 := by
      simp only [List.getD_eq_getElem?_getD, List.getElem?_replicate]
      split <;> rfl
    rw [hz, zero_add]
    rfl

theorem addGreenPhases_total (v : Int) (gp : List Int) (acc acc1 : List ℚ × Int)
    (h : addGreenPhases v gp acc = some acc1) :
    acc1.2 = acc.2 + v * (gp.length : Int) := by
  induction gp generalizing acc with
  | nil =>
    simp only [addGreenPhases, Option.some.injEq] at h
    simp [← h]
  | cons it rest ih =>
    obtain ⟨counts, total⟩ := acc
    rw [addGreenPhases] at h
    split at h
    · rw [ih _ h]
      simp only [List.length_cons]
      push_cast
      ring
    · simp at h

theorem addLanes_total (traci : TraCI) (lanes : List Lane) (acc acc1 : List ℚ × Int)
    (h : addLanes traci lanes acc = some acc1) :
    acc1.2 = acc.2 + lanesTotal traci lanes := by
  induction lanes generalizing acc with
  | nil =>
    simp only [addLanes, Option.some.injEq] at h
    simp [← h, lanesTotal]
  | cons lane rest ih =>
    rw [addLanes] at h
    split at h
    · simp at h
    · next acc2 h2 =>
      rw [ih _ h, addGreenPhases_total _ _ _ _ h2]
      simp only [lanesTotal, List.map_cons, List.sum_cons, vehiclesOn]
      ring

theorem addEdges_total (traci : TraCI) (edges : List Edge) (acc acc1 : List ℚ × Int)
    (h : addEdges traci edges acc = some acc1) :
    acc1.2 = acc.2 + lanesTotal traci (edges.flatMap Edge.lanes) := by
  induction edges generalizing acc with
  | nil =>
    simp only [addEdges, Option.some.injEq] at h
    simp [← h, lanesTotal]
  | cons edge rest ih =>
    rw [addEdges] at h
    split at h
    · simp at h
    · next acc2 h2 =>
      rw [ih _ h, addLanes_total _ _ _ _ h2]
      have hsplit : (edge :: rest).flatMap Edge.lanes =
          edge.lanes ++ rest.flatMap Edge.lanes := by
        simp [List.flatMap]
      rw [hsplit]
      simp only [lanesTotal, List.map_append, List.sum_append]
      ring

theorem phaseVehicleCounts_total (self : TrafficLightRouter) (traci : TraCI)
    (acc : List ℚ × Int) (h : self.phaseVehicleCounts traci = some acc) :
    acc.2 = totalDemand self traci := by
  have := addEdges_total traci _ _ _ h
  simpa [totalDemand, incomingLanes] using this

theorem handleMessage_switch_of_delayed (self : TrafficLightRouter) (now : ℚ)
    (traci : TraCI) (hdone : self.done = false) (h : self.switchDelayed now traci = true) :
    self.handleMessage tlSwitchEvt now traci =
      some (self,
        [Effect.scheduleAt (now + self.LowDensityExtendTime) tlSwitchEvt,
         Effect.commandSetPhaseDurationRemaining self.id 10000000]) := by
  simp [TrafficLightRouter.handleMessage, hdone, h, tlSwitchEvt]

theorem handleMessage_switch_of_not_delayed (self : TrafficLightRouter) (now : ℚ)
    (traci : TraCI) (hne : self.phases ≠ []) (hdone : self.done = false)
    (h : self.switchDelayed now traci = false) :
    self.handleMessage tlSwitchEvt now traci =
      some ({ self with
              lastSwitchTime := now,
              currentPhase := (self.currentPhase + 1) % self.phases.length },
        [Effect.commandSetPhase self.id ((self.currentPhase + 1) % self.phases.length),
         Effect.scheduleAt
           (now + durationAt self.phases ((self.currentPhase + 1) % self.phases.length))
           tlSwitchEvt,
         Effect.commandSetPhaseDurationRemaining self.id 10000000]) := by
  have hlen : self.phases.length ≠ 0 := fun e => hne (List.length_eq_zero.mp e)
  have hlt : (self.currentPhase + 1) % self.phases.length < self.phases.length :=
    Nat.mod_lt _ (Nat.pos_of_ne_zero hlen)
  have hget : self.phases[(self.currentPhase + 1) % self.phases.length]? =
      some (self.phases[(self.currentPhase + 1) % self.phases.length]) :=
    List.getElem?_eq_getElem hlt
  simp [TrafficLightRouter.handleMessage, hdone, h, hlen, hget, tlSwitchEvt, durationAt]

/-- While fewer than `MaxPhaseDuration + LowDensityExtendTime` seconds have passed since
the last switch at the firing time `t`, and `n` further extensions would reach
`MaxPhaseDuration`, the switch happens within `n + 1` firings, at a time with the same
bound. -/
theorem switchTime_bounded (traffic : Nat → TraCI) (self : TrafficLightRouter)
    (hne : self.phases ≠ []) (hdone : self.done = false)
    (n : Nat) (k : Nat) (t : ℚ)
    (hreach : self.lastSwitchTime + self.MaxPhaseDuration ≤
      t + (n : ℚ) * self.LowDensityExtendTime)
    (hinv : t < self.lastSwitchTime + self.MaxPhaseDuration + self.LowDensityExtendTime) :
    ∃ t1, switchTime traffic (n + 1) self k t = some t1 ∧ t ≤ t1 ∧
      t1 < self.lastSwitchTime + self.MaxPhaseDuration + self.LowDensityExtendTime := by
  induction n generalizing k t with
  | zero =>
    have hno : self.switchDelayed t (traffic k) = false := by
      have hge : ¬ (t - self.lastSwitchTime < self.MaxPhaseDuration) := by
        simp only [Nat.cast_zero, zero_mul, add_zero] at hreach
        linarith
      simp [TrafficLightRouter.switchDelayed, hge]
    refine ⟨t, ?_, le_refl _, hinv⟩
    simp [switchTime, handleMessage_switch_of_not_delayed self t (traffic k) hne hdone hno,
      phasesSet]
  | succ n ih =>
    cases hd : self.switchDelayed t (traffic k) with
    | false =>
      refine ⟨t, ?_, le_refl _, hinv⟩
      rw [switchTime]
      simp [handleMessage_switch_of_not_delayed self t (traffic k) hne hdone hd, phasesSet]
    | true =>
      have hlt : t - self.lastSwitchTime < self.MaxPhaseDuration := by
        simp only [TrafficLightRouter.switchDelayed, Bool.and_eq_true, decide_eq_true_eq] at hd
        exact hd.1.2
      have hreach1 : self.lastSwitchTime + self.MaxPhaseDuration ≤
          t + self.LowDensityExtendTime + (n : ℚ) * self.LowDensityExtendTime := by
        have := hreach
        push_cast at this
        linarith
      have hinv1 : t + self.LowDensityExtendTime <
          self.lastSwitchTime + self.MaxPhaseDuration + self.LowDensityExtendTime := by
        linarith
      obtain ⟨t1, h1, h2, h3⟩ := ih (k + 1) (t + self.LowDensityExtendTime) hreach1 hinv1
      have hpos : 0 ≤ self.LowDensityExtendTime := by
        by_contra hneg
        push_neg at hneg
        have : (n : ℚ) * self.LowDensityExtendTime ≤ 0 :=
          mul_nonpos_of_nonneg_of_nonpos (Nat.cast_nonneg n) (le_of_lt hneg)
        linarith
      refine ⟨t1, ?_, by linarith, h3⟩
      rw [switchTime]
      simp [handleMessage_switch_of_delayed self t (traffic k) hdone hd, phasesSet, timersOf,
        h1]

theorem HighDensityRecalculate_frame (self s : TrafficLightRouter) (traci : TraCI)
    (h : self.HighDensityRecalculate traci = some s) :
    ∃ ps, s = { self with phases := ps } ∧ ps.length = self.phases.length := by
  unfold TrafficLightRouter.HighDensityRecalculate at h
  split at h
  · simp at h
  · next counts total _ =>
    split at h
    · simp only [Option.some.injEq] at h
      exact ⟨_, h.symm, setDurations_length _ _ _ _ _⟩
    · simp only [Option.some.injEq] at h
      exact ⟨self.phases, h.symm, rfl⟩

/-- What `handleMessage` never writes: the two cycle totals, the mode and the number of
phases; and, outside mode 1, the phases themselves. -/
theorem handleMessage_frame (self s : TrafficLightRouter) (msg : cMessage) (now : ℚ)
    (traci : TraCI) (effects : List Effect)
    (h : self.handleMessage msg now traci = some (s, effects)) :
    s.cycleDuration = self.cycleDuration ∧
    s.nonTransitionalCycleDuration = self.nonTransitionalCycleDuration ∧
    s.TLLogicMode = self.TLLogicMode ∧
    s.phases.length = self.phases.length ∧
    (self.TLLogicMode ≠ 1 → s.phases = self.phases) := by
  unfold TrafficLightRouter.handleMessage at h
  split_ifs at h with h1 h2 h3 h4 h5 h6
  · split at h
    · simp at h
    · next s1 hs1 =>
      obtain ⟨ps, rfl, hlen⟩ := HighDensityRecalculate_frame self s1 traci hs1
      simp only [Option.some.injEq, Prod.mk.injEq] at h
      obtain ⟨rfl, _⟩ := h
      exact ⟨rfl, rfl, rfl, hlen, fun hm => absurd h3 hm⟩
  · simp only [Option.some.injEq, Prod.mk.injEq] at h
    obtain ⟨rfl, _⟩ := h
    exact ⟨rfl, rfl, rfl, rfl, fun _ => rfl⟩
  · simp only [Option.some.injEq, Prod.mk.injEq] at h
    obtain ⟨rfl, _⟩ := h
    exact ⟨rfl, rfl, rfl, rfl, fun _ => rfl⟩
  · simp only at h
    split at h
    · simp at h
    · simp only [Option.some.injEq, Prod.mk.injEq] at h
      obtain ⟨rfl, _⟩ := h
      exact ⟨rfl, rfl, rfl, rfl, fun _ => rfl⟩
  · simp only [Option.some.injEq, Prod.mk.injEq] at h
    obtain ⟨rfl, _⟩ := h
    exact ⟨rfl, rfl, rfl, rfl, fun _ => rfl⟩
  · simp only [Option.some.injEq, Prod.mk.injEq] at h
    obtain ⟨rfl, _⟩ := h
    exact ⟨rfl, rfl, rfl, rfl, fun _ => rfl⟩

theorem handleMessages_frame (events : List Event) (self s : TrafficLightRouter)
    (effects : List Effect) (h : handleMessages self events = some (s, effects)) :
    s.cycleDuration = self.cycleDuration ∧
    s.nonTransitionalCycleDuration = self.nonTransitionalCycleDuration ∧
    s.TLLogicMode = self.TLLogicMode ∧
    s.phases.length = self.phases.length ∧
    (self.TLLogicMode ≠ 1 → s.phases = self.phases) := by
  induction events generalizing self effects with
  | nil =>
    simp only [handleMessages, Option.some.injEq, Prod.mk.injEq] at h
    obtain ⟨rfl, _⟩ := h
    exact ⟨rfl, rfl, rfl, rfl, fun _ => rfl⟩
  | cons ev rest ih =>
    rw [handleMessages] at h
    split at h
    · simp at h
    · next s1 e1 h1 =>
      split at h
      · simp at h
      · next s2 e2 h2 =>
        simp only [Option.some.injEq, Prod.mk.injEq] at h
        obtain ⟨rfl, _⟩ := h
        obtain ⟨a1, a2, a3, a4, a5⟩ := handleMessage_frame self s1 _ _ _ _ h1
        obtain ⟨b1, b2, b3, b4, b5⟩ := ih s1 e2 h2
        refine ⟨b1.trans a1, b2.trans a2, b3.trans a3, b4.trans a4, fun hm => ?_⟩
        rw [b5 (by rw [a3]; exact hm), a5 hm]

theorem init_frame (self s : TrafficLightRouter) (stage : Int) (par : Params) (t : ℚ)
    (effects : List Effect) (h : TrafficLightRouter.initialize self stage par t = some (s, effects)) :
    s.cycleDuration = self.cycleDuration ∧
    s.nonTransitionalCycleDuration = self.nonTransitionalCycleDuration ∧
    s.phases = self.phases ∧ s.done = self.done ∧
    s.currentPhase = self.currentPhase ∧ s.lastSwitchTime = self.lastSwitchTime := by
  unfold TrafficLightRouter.initialize at h
  dsimp only at h
  split_ifs at h
  · simp only [Option.some.injEq, Prod.mk.injEq] at h
    obtain ⟨rfl, _⟩ := h
    exact ⟨rfl, rfl, rfl, rfl, rfl, rfl⟩
  · split at h
    · simp at h
    · simp only [Option.some.injEq, Prod.mk.injEq] at h
      obtain ⟨rfl, _⟩ := h
      exact ⟨rfl, rfl, rfl, rfl, rfl, rfl⟩
  · split at h
    · simp at h
    · simp only [Option.some.injEq, Prod.mk.injEq] at h
      obtain ⟨rfl, _⟩ := h
      exact ⟨rfl, rfl, rfl, rfl, rfl, rfl⟩
  · simp only [Option.some.injEq, Prod.mk.injEq] at h
    obtain ⟨rfl, _⟩ := h
    exact ⟨rfl, rfl, rfl, rfl, rfl, rfl⟩
  · simp only [Option.some.injEq, Prod.mk.injEq] at h
    obtain ⟨rfl, _⟩ := h
    exact ⟨rfl, rfl, rfl, rfl, rfl, rfl⟩

/-! ## The phase-switch handler -/

/-- C1: with a non-empty plan and `done = false`, a phase-switch event at time `now` for
which the extension condition fails (mode is not 2, or the current phase is odd, or
`MaxPhaseDuration` has elapsed since the last switch, or the detector answers `false`)
sets `lastSwitchTime = now`, advances `currentPhase` by one modulo the number of phases,
issues `commandSetPhase` with the new index and arms one phase-switch timer, at
`now + duration` of the new phase. -/
theorem handleMessage_switch_advances (self : TrafficLightRouter) (now : ℚ) (traci : TraCI)
    (hne : self.phases ≠ []) (hdone : self.done = false)
    (hno : self.TLLogicMode ≠ 2 ∨ self.currentPhase % 2 = 1 ∨
      self.MaxPhaseDuration ≤ now - self.lastSwitchTime ∨
      self.LowDensityRecalculate traci = false) :
    ∃ s effects, self.handleMessage tlSwitchEvt now traci = some (s, effects) ∧
      s.lastSwitchTime = now ∧
      s.currentPhase = (self.currentPhase + 1) % self.phases.length ∧
      s.phases = self.phases ∧
      phasesSet effects = [s.currentPhase] ∧
      timersOf tlSwitchEvt effects = [now + durationAt self.phases s.currentPhase] ∧
      effects =
        [Effect.commandSetPhase self.id s.currentPhase,
         Effect.scheduleAt (now + durationAt self.phases s.currentPhase) tlSwitchEvt,
         Effect.commandSetPhaseDurationRemaining self.id 10000000] := by
  have hlen : self.phases.length ≠ 0 := by
    intro h
    exact hne (List.length_eq_zero.mp h)
  have hlt : (self.currentPhase + 1) % self.phases.length < self.phases.length :=
    Nat.mod_lt _ (Nat.pos_of_ne_zero hlen)
  have hext : self.switchDelayed now traci = false := by
    unfold TrafficLightRouter.switchDelayed
    rcases hno with h | h | h | h
    · simp [h]
    · simp [h]
    · simp [not_lt.mpr h]
    · simp [h]
  have hget : self.phases[(self.currentPhase + 1) % self.phases.length]? =
      some (self.phases[(self.currentPhase + 1) % self.phases.length]) :=
    List.getElem?_eq_getElem hlt
  refine ⟨{ self with lastSwitchTime := now,
                      currentPhase := (self.currentPhase + 1) % self.phases.length },
    _, ?_, rfl, rfl, rfl, ?_, ?_, rfl⟩
  · simp [TrafficLightRouter.handleMessage, hdone, hext, hlen, hget, tlSwitchEvt, durationAt]
  · simp [phasesSet]
  · simp [timersOf]

/-- The instance of C1 for the four-phase plan after `build`, in mode 0, at time 10. -/
theorem handleMessage_switch_advances_witness :
    ∃ s effects, built4.handleMessage tlSwitchEvt 10 noVehicle = some (s, effects) ∧
      s.lastSwitchTime = 10 ∧
      s.currentPhase = (built4.currentPhase + 1) % built4.phases.length ∧
      s.phases = built4.phases ∧
      phasesSet effects = [s.currentPhase] ∧
      timersOf tlSwitchEvt effects = [10 + durationAt built4.phases s.currentPhase] ∧
      effects =
        [Effect.commandSetPhase built4.id s.currentPhase,
         Effect.scheduleAt (10 + durationAt built4.phases s.currentPhase) tlSwitchEvt,
         Effect.commandSetPhaseDurationRemaining built4.id 10000000] :=
  handleMessage_switch_advances built4 10 noVehicle
    (by simp [built4, TrafficLightRouter.build, plan4])
    (by simp [built4, TrafficLightRouter.build])
    (Or.inl (by simp [built4, TrafficLightRouter.build, blank]))

/-- C2: with `done = false`, a phase-switch event at time `now` in mode 2, in an even
phase, less than `MaxPhaseDuration` after the last switch and with the detector answering
`true`, leaves the controller as it is (so `currentPhase` and `lastSwitchTime` keep their
values), issues no `commandSetPhase` and arms the phase-switch timer at
`now + LowDensityExtendTime`. -/
theorem handleMessage_switch_extends (self : TrafficLightRouter) (now : ℚ) (traci : TraCI)
    (hdone : self.done = false) (hmode : self.TLLogicMode = 2)
    (heven : self.currentPhase % 2 = 0)
    (hmax : now - self.lastSwitchTime < self.MaxPhaseDuration)
    (hdet : self.LowDensityRecalculate traci = true) :
    ∃ s effects, self.handleMessage tlSwitchEvt now traci = some (s, effects) ∧
      s = self ∧ s.currentPhase = self.currentPhase ∧
      s.lastSwitchTime = self.lastSwitchTime ∧
      phasesSet effects = [] ∧
      timersOf tlSwitchEvt effects = [now + self.LowDensityExtendTime] ∧
      effects =
        [Effect.scheduleAt (now + self.LowDensityExtendTime) tlSwitchEvt,
         Effect.commandSetPhaseDurationRemaining self.id 10000000] := by
  have hext : self.switchDelayed now traci = true := by
    simp [TrafficLightRouter.switchDelayed, hmode, heven, hmax, hdet]
  refine ⟨self, _, ?_, rfl, rfl, rfl, ?_, ?_, rfl⟩
  · simp [TrafficLightRouter.handleMessage, hdone, hext, tlSwitchEvt]
  · simp [phasesSet]
  · simp [timersOf]

/-- The scenario of C2: one vehicle moving at speed 10, 20 m before the stop line of an
edge of speed 10 (2 s away), on a lane that is green in the current phase 0, with an
extension window of 5 s; the handler re-arms the timer at `10 + 5` and does not advance. -/
theorem handleMessage_switch_extends_witness :
    ∃ s effects, lowDensity4.handleMessage tlSwitchEvt 10 oneVehicle = some (s, effects) ∧
      s = lowDensity4 ∧ s.currentPhase = lowDensity4.currentPhase ∧
      s.lastSwitchTime = lowDensity4.lastSwitchTime ∧
      phasesSet effects = [] ∧
      timersOf tlSwitchEvt effects = [10 + lowDensity4.LowDensityExtendTime] ∧
      effects =
        [Effect.scheduleAt (10 + lowDensity4.LowDensityExtendTime) tlSwitchEvt,
         Effect.commandSetPhaseDurationRemaining lowDensity4.id 10000000] :=
  handleMessage_switch_extends lowDensity4 10 oneVehicle
    (by simp [lowDensity4, built4, TrafficLightRouter.build])
    (by simp [lowDensity4])
    (by simp [lowDensity4, built4, TrafficLightRouter.build])
    (by norm_num [lowDensity4, built4, TrafficLightRouter.build])
    (by norm_num [TrafficLightRouter.LowDensityRecalculate, vehicleBenefits, lowDensity4,
      built4, TrafficLightRouter.build, crossing, netOf, oneVehicle])

/-! ## Shutdown -/

theorem handleMessage_done (self : TrafficLightRouter) (hdone : self.done = true)
    (msg : cMessage) (now : ℚ) (traci : TraCI) :
    self.handleMessage msg now traci = some (self, []) := by
  simp [TrafficLightRouter.handleMessage, hdone]

theorem handleMessages_done (self : TrafficLightRouter) (hdone : self.done = true)
    (events : List Event) : handleMessages self events = some (self, []) := by
  induction events with
  | nil => rfl
  | cons ev rest ih => simp [handleMessages, handleMessage_done self hdone, ih]

/-- C4: after `finish`, `done` is `true` and every later call of `handleMessage`, for
any message at any time and in any traffic, and hence every sequence of such calls,
returns the controller unchanged (same `currentPhase`, `lastSwitchTime` and phases)
with no effect at all: no backend command and no timer. -/
theorem handleMessage_after_finish (self : TrafficLightRouter) :
    self.finish.done = true ∧
    self.finish.currentPhase = self.currentPhase ∧
    self.finish.lastSwitchTime = self.lastSwitchTime ∧
    self.finish.phases = self.phases ∧
    (∀ (msg : cMessage) (now : ℚ) (traci : TraCI),
      self.finish.handleMessage msg now traci = some (self.finish, [])) ∧
    (∀ events : List Event, handleMessages self.finish events = some (self.finish, [])) :=
  ⟨rfl, rfl, rfl, rfl, fun msg now traci => handleMessage_done _ rfl msg now traci,
    fun events => handleMessages_done _ rfl events⟩

/-! ## build -/

/-- C7: for every list of phases, right after `build` the controller has
`cycleDuration` equal to the sum of all phase durations, `nonTransitionalCycleDuration`
equal to the sum of the durations at even indices, `currentPhase = 0`,
`lastSwitchTime = 0` and `done = false` (and holds the given phases). -/
theorem build_totals (self : TrafficLightRouter) (id type programID : String) (offset : ℚ)
    (phases : List Phase) (net : Net) :
    (self.build id type programID offset phases net).cycleDuration = sumDurations phases ∧
    (self.build id type programID offset phases net).nonTransitionalCycleDuration =
      sumEvenDurations phases ∧
    (self.build id type programID offset phases net).currentPhase = 0 ∧
    (self.build id type programID offset phases net).lastSwitchTime = 0 ∧
    (self.build id type programID offset phases net).done = false ∧
    (self.build id type programID offset phases net).phases = phases := by
  refine ⟨?_, ?_, rfl, rfl, rfl, rfl⟩
  · show (buildLoop phases 0 (0, 0)).1 = sumDurations phases
    rw [buildLoop_eq]
    simp
  · show (buildLoop phases 0 (0, 0)).2 = sumEvenDurations phases
    rw [buildLoop_eq, sumEvenFrom_zero]
    simp

/-! ## High-density redistribution -/

/-- C3: when the green-phase indices of all incoming lanes are indices of the plan and
the total of the contributions is positive, `HighDensityRecalculate` returns and every
phase `i` at an even index then has the duration
`max ((count i / total) * 2 * nonTransitionalCycleDuration) 3`, where `count i` is the
sum over the incoming lanes of (vehicles on the lane) x (occurrences of `i` in the
green-phase list of the lane), in exact arithmetic. -/
theorem HighDensityRecalculate_durations (self : TrafficLightRouter) (traci : TraCI)
    (hrange : greenPhasesInRange (incomingLanes self) self.phases.length)
    (htotal : 0 < totalDemand self traci) :
    ∃ s, self.HighDensityRecalculate traci = some s ∧
      ∀ i, i < self.phases.length → i % 2 = 0 →
        durationAt s.phases i =
          max (((phaseDemand self traci i : ℚ) / (totalDemand self traci : ℚ)) * 2 *
            self.nonTransitionalCycleDuration) 3 := by
  obtain ⟨counts, h1, _, h3⟩ := phaseVehicleCounts_eq self traci hrange
  refine ⟨{ self with
    phases := setDurations counts (totalDemand self traci)
      self.nonTransitionalCycleDuration self.phases 0 }, ?_, ?_⟩
  · simp [TrafficLightRouter.HighDensityRecalculate, h1, htotal]
  · intro i hi heven
    show durationAt (setDurations counts (totalDemand self traci)
      self.nonTransitionalCycleDuration self.phases 0) i = _
    rw [durationAt_setDurations _ _ _ _ _ _ hi]
    simp only [zero_add, heven, if_true]
    rw [newDuration_eq_max, h3 i]

/-- The scenario of C3: counts `[8, _, 2, _]` and `nonTransitionalCycleDuration = 20`
give phase 0 the duration 32 and phase 2 the duration 8. -/
theorem HighDensityRecalculate_durations_witness :
    greenPhasesInRange (incomingLanes highDensity4) highDensity4.phases.length ∧
    0 < totalDemand highDensity4 tenVehicles ∧
    phaseDemand highDensity4 tenVehicles 0 = 8 ∧
    phaseDemand highDensity4 tenVehicles 2 = 2 ∧
    highDensity4.nonTransitionalCycleDuration = 20 ∧
    ∃ s, highDensity4.HighDensityRecalculate tenVehicles = some s ∧
      durationAt s.phases 0 = 32 ∧ durationAt s.phases 2 = 8 := by
  have hr : greenPhasesInRange (incomingLanes highDensity4) highDensity4.phases.length := by
    simp [greenPhasesInRange, incomingLanes, highDensity4, built4, TrafficLightRouter.build,
      crossing, netOf, plan4]
  have ht : totalDemand highDensity4 tenVehicles = 10 := by
    simp [totalDemand, lanesTotal, vehiclesOn, incomingLanes, highDensity4, built4,
      TrafficLightRouter.build, crossing, netOf, tenVehicles]
  have h0 : phaseDemand highDensity4 tenVehicles 0 = 8 := by
    simp [phaseDemand, lanesDemand, vehiclesOn, incomingLanes, highDensity4, built4,
      TrafficLightRouter.build, crossing, netOf, tenVehicles]
  have h2 : phaseDemand highDensity4 tenVehicles 2 = 2 := by
    simp [phaseDemand, lanesDemand, vehiclesOn, incomingLanes, highDensity4, built4,
      TrafficLightRouter.build, crossing, netOf, tenVehicles]
  have hn : highDensity4.nonTransitionalCycleDuration = 20 := by
    norm_num [highDensity4, built4, TrafficLightRouter.build, plan4, buildLoop]
  have hlen : highDensity4.phases.length = 4 := by
    simp [highDensity4, built4, TrafficLightRouter.build, plan4]
  have hpos : 0 < totalDemand highDensity4 tenVehicles := by
    rw [ht]
    decide
  obtain ⟨s, hs, hd⟩ := HighDensityRecalculate_durations highDensity4 tenVehicles hr hpos
  refine ⟨hr, hpos, h0, h2, hn, s, hs, ?_, ?_⟩
  · rw [hd 0 (by rw [hlen]; decide) rfl, h0, ht, hn]
    norm_num
  · rw [hd 2 (by rw [hlen]; decide) rfl, h2, ht, hn]
    norm_num

/-- C10: when the contributions of the incoming lanes sum to `total = 0`,
`HighDensityRecalculate` changes nothing: whenever it returns, it returns the controller
it was called on, so every phase keeps its duration; and it does return when the
green-phase indices are indices of the plan. -/
theorem HighDensityRecalculate_total_zero (self : TrafficLightRouter) (traci : TraCI)
    (htotal : totalDemand self traci = 0) :
    (∀ s, self.HighDensityRecalculate traci = some s →
      s = self ∧ ∀ i, durationAt s.phases i = durationAt self.phases i) ∧
    (greenPhasesInRange (incomingLanes self) self.phases.length →
      self.HighDensityRecalculate traci = some self) := by
  constructor
  · intro s hs
    unfold TrafficLightRouter.HighDensityRecalculate at hs
    split at hs
    · simp at hs
    · next counts total hc =>
      have ht : total = 0 := by
        have := phaseVehicleCounts_total self traci _ hc
        simpa [htotal] using this
      subst ht
      simp only [gt_iff_lt, lt_self_iff_false, if_false, Option.some.injEq] at hs
      subst hs
      exact ⟨rfl, fun _ => rfl⟩
  · intro hrange
    obtain ⟨counts, h1, _, _⟩ := phaseVehicleCounts_eq self traci hrange
    simp [TrafficLightRouter.HighDensityRecalculate, h1, htotal]

/-- The instance of C10 for the four-phase plan with no vehicle on any lane. -/
theorem HighDensityRecalculate_total_zero_witness :
    totalDemand highDensity4 noVehicle = 0 ∧
    highDensity4.HighDensityRecalculate noVehicle = some highDensity4 := by
  have ht : totalDemand highDensity4 noVehicle = 0 := by
    simp [totalDemand, lanesTotal, vehiclesOn, incomingLanes, highDensity4, built4,
      TrafficLightRouter.build, crossing, netOf, noVehicle]
  have hr : greenPhasesInRange (incomingLanes highDensity4) highDensity4.phases.length := by
    simp [greenPhasesInRange, incomingLanes, highDensity4, built4, TrafficLightRouter.build,
      crossing, netOf, plan4]
  exact ⟨ht, (HighDensityRecalculate_total_zero highDensity4 noVehicle ht).2 hr⟩

/-! ## Low-density extension: the detector -/

theorem LowDensityRecalculate_eq_true_iff (self : TrafficLightRouter) (traci : TraCI) :
    self.LowDensityRecalculate traci = true ↔
      ∃ edge ∈ (self.net.nodes self.id).inEdges, ∃ lane ∈ edge.lanes,
        (self.currentPhase : Int) ∈ lane.greenPhases ∧
        ∃ vehicle ∈ traci.commandGetLaneVehicleList lane.id,
          traci.commandGetVehicleSpeed vehicle > 1 / 100 ∧
          ((self.net.edges edge.id).length - traci.commandGetVehicleLanePosition vehicle) /
            (self.net.edges edge.id).speed < self.LowDensityExtendTime := by
  simp only [TrafficLightRouter.LowDensityRecalculate, vehicleBenefits, List.any_eq_true,
    Bool.and_eq_true, decide_eq_true_eq]

/-- C9: `LowDensityRecalculate` returns `true` exactly when there are an incoming edge, a
lane on it whose green-phase list contains `currentPhase`, and a vehicle on that lane
with speed above 0.01 for which (edge length - lane position) / edge speed is below
`LowDensityExtendTime`.  Hence the result is the same when the incoming edges, the lanes
of each edge and the vehicles of each lane are listed in another order. -/
theorem LowDensityRecalculate_iff_exists (self : TrafficLightRouter) (traci : TraCI) :
    (self.LowDensityRecalculate traci = true ↔
      ∃ edge ∈ (self.net.nodes self.id).inEdges, ∃ lane ∈ edge.lanes,
        (self.currentPhase : Int) ∈ lane.greenPhases ∧
        ∃ vehicle ∈ traci.commandGetLaneVehicleList lane.id,
          traci.commandGetVehicleSpeed vehicle > 1 / 100 ∧
          ((self.net.edges edge.id).length - traci.commandGetVehicleLanePosition vehicle) /
            (self.net.edges edge.id).speed < self.LowDensityExtendTime) ∧
    ∀ (relane : Edge → Edge) (inEdges1 : List Edge) (vehicles1 : String → List String),
      (∀ e, (relane e).id = e.id ∧ (relane e).lanes.Perm e.lanes) →
      inEdges1.Perm ((self.net.nodes self.id).inEdges.map relane) →
      (∀ lane, (vehicles1 lane).Perm (traci.commandGetLaneVehicleList lane)) →
      TrafficLightRouter.LowDensityRecalculate
          { self with net := { self.net with nodes := fun _ => ⟨inEdges1⟩ } }
          { traci with commandGetLaneVehicleList := vehicles1 } =
        self.LowDensityRecalculate traci := by
  refine ⟨LowDensityRecalculate_eq_true_iff self traci, ?_⟩
  intro relane inEdges1 vehicles1 hre hperm hveh
  rw [Bool.eq_iff_iff, LowDensityRecalculate_eq_true_iff, LowDensityRecalculate_eq_true_iff]
  constructor
  · rintro ⟨edge, hedge, lane, hlane, hgreen, vehicle, hv, hspeed, htime⟩
    obtain ⟨e0, he0, rfl⟩ := List.mem_map.mp (hperm.mem_iff.mp hedge)
    refine ⟨e0, he0, lane, (hre e0).2.mem_iff.mp hlane, hgreen, vehicle,
      (hveh lane.id).mem_iff.mp hv, hspeed, ?_⟩
    rw [← (hre e0).1]
    exact htime
  · rintro ⟨edge, hedge, lane, hlane, hgreen, vehicle, hv, hspeed, htime⟩
    refine ⟨relane edge, hperm.mem_iff.mpr (List.mem_map.mpr ⟨edge, hedge, rfl⟩), lane,
      (hre edge).2.mem_iff.mpr hlane, hgreen, vehicle, (hveh lane.id).mem_iff.mpr hv,
      hspeed, ?_⟩
    show ((self.net.edges (relane edge).id).length - _) / (self.net.edges (relane edge).id).speed
      < self.LowDensityExtendTime
    rw [(hre edge).1]
    exact htime

/-- The instance of C9 for the crossing with one vehicle: the detector answers `true`,
also when the edges, the lanes and the vehicles are listed in reverse order. -/
theorem LowDensityRecalculate_iff_exists_witness :
    lowDensity4.LowDensityRecalculate oneVehicle = true ∧
    TrafficLightRouter.LowDensityRecalculate
        { lowDensity4 with net := { lowDensity4.net with nodes := fun _ =>
            ⟨((lowDensity4.net.nodes lowDensity4.id).inEdges.map fun e =>
              { e with lanes := e.lanes.reverse }).reverse⟩ } }
        { oneVehicle with commandGetLaneVehicleList := fun lane =>
            (oneVehicle.commandGetLaneVehicleList lane).reverse } = true := by
  have ht : lowDensity4.LowDensityRecalculate oneVehicle = true := by
    norm_num [TrafficLightRouter.LowDensityRecalculate, vehicleBenefits, lowDensity4,
      built4, TrafficLightRouter.build, crossing, netOf, oneVehicle]
  have h := (LowDensityRecalculate_iff_exists lowDensity4 oneVehicle).2
    (fun e => { e with lanes := e.lanes.reverse })
    (((lowDensity4.net.nodes lowDensity4.id).inEdges.map fun e =>
      { e with lanes := e.lanes.reverse }).reverse)
    (fun lane => (oneVehicle.commandGetLaneVehicleList lane).reverse)
    (fun e => ⟨rfl, List.reverse_perm _⟩) (List.reverse_perm _)
    (fun lane => List.reverse_perm _)
  exact ⟨ht, h.trans ht⟩

/-! ## Low-density extension: the bound on a phase -/

/-- C5, as stated, fails: in mode 2, in the even phase 0 entered at time 0 with planned
duration 10, `MaxPhaseDuration = 12` and an extension window of 5 s, with the detector
answering "extend" at every firing, the timer fires at 10 (extension granted, since
10 < 12) and at 15, where the phase is switched: 15 is later than 0 + 12. -/
theorem extension_exceeds_MaxPhaseDuration :
    lowDensity4.TLLogicMode = 2 ∧ lowDensity4.currentPhase % 2 = 0 ∧
    lowDensity4.done = false ∧ lowDensity4.lastSwitchTime = 0 ∧
    lowDensity4.MaxPhaseDuration = 12 ∧
    durationAt lowDensity4.phases lowDensity4.currentPhase = 10 ∧
    (∀ k : Nat, lowDensity4.LowDensityRecalculate ((fun _ => oneVehicle) k) = true) ∧
    switchTime (fun _ => oneVehicle) 2 lowDensity4 0
      (lowDensity4.lastSwitchTime +
        durationAt lowDensity4.phases lowDensity4.currentPhase) = some 15 ∧
    ¬ ((15 : ℚ) ≤ lowDensity4.lastSwitchTime + lowDensity4.MaxPhaseDuration) := by
  have hdet : lowDensity4.LowDensityRecalculate oneVehicle = true := by
    norm_num [TrafficLightRouter.LowDensityRecalculate, vehicleBenefits, lowDensity4,
      built4, TrafficLightRouter.build, crossing, netOf, oneVehicle]
  have hdone : lowDensity4.done = false := rfl
  have hne : lowDensity4.phases ≠ [] := by
    simp [lowDensity4, built4, TrafficLightRouter.build, plan4]
  have hdur : durationAt lowDensity4.phases lowDensity4.currentPhase = 10 := by
    simp [durationAt, lowDensity4, built4, TrafficLightRouter.build, plan4]
  have hlast : lowDensity4.lastSwitchTime = 0 := rfl
  have hmax : lowDensity4.MaxPhaseDuration = 12 := rfl
  have hwin : lowDensity4.LowDensityExtendTime = 5 := rfl
  have h10 : lowDensity4.switchDelayed 10 oneVehicle = true := by
    simp only [TrafficLightRouter.switchDelayed, hdet, hlast, hmax]
    norm_num [lowDensity4, built4, TrafficLightRouter.build]
  have h15 : lowDensity4.switchDelayed 15 oneVehicle = false := by
    simp only [TrafficLightRouter.switchDelayed, hdet, hlast, hmax]
    norm_num
  refine ⟨rfl, rfl, rfl, rfl, rfl, hdur, fun _ => hdet, ?_, ?_⟩
  · rw [hdur, hlast]
    have e : (0 : ℚ) + 10 = 10 := by norm_num
    rw [e, switchTime, handleMessage_switch_of_delayed lowDensity4 10 oneVehicle hdone h10]
    simp only [phasesSet, timersOf, List.filterMap_cons, List.filterMap_nil, if_true, hwin]
    have e1 : (10 : ℚ) + 5 = 15 := by norm_num
    rw [e1, switchTime,
      handleMessage_switch_of_not_delayed lowDensity4 15 oneVehicle hne hdone h15]
    simp [phasesSet]
  · rw [hlast, hmax]
    norm_num

/-- C5, amended: with a non-empty plan, `done = false`, a positive extension window and
a planned duration of the current phase of at most `MaxPhaseDuration`, whatever the
detector answers at each firing (and in any mode), the phase-switch timer armed at
`lastSwitchTime + duration` leads to a switch after finitely many firings, at a time
earlier than `lastSwitchTime + MaxPhaseDuration + LowDensityExtendTime`. -/
theorem extension_bounded (self : TrafficLightRouter) (traffic : Nat → TraCI)
    (hne : self.phases ≠ []) (hdone : self.done = false)
    (hwin : 0 < self.LowDensityExtendTime)
    (hdur : durationAt self.phases self.currentPhase ≤ self.MaxPhaseDuration) :
    ∃ fuel t,
      switchTime traffic fuel self 0
        (self.lastSwitchTime + durationAt self.phases self.currentPhase) = some t ∧
      self.lastSwitchTime + durationAt self.phases self.currentPhase ≤ t ∧
      t < self.lastSwitchTime + self.MaxPhaseDuration + self.LowDensityExtendTime := by
  obtain ⟨n, hn⟩ := exists_nat_ge
    ((self.MaxPhaseDuration - durationAt self.phases self.currentPhase) /
      self.LowDensityExtendTime)
  have hreach : self.lastSwitchTime + self.MaxPhaseDuration ≤
      self.lastSwitchTime + durationAt self.phases self.currentPhase +
        (n : ℚ) * self.LowDensityExtendTime := by
    have := (div_le_iff₀ hwin).mp hn
    linarith
  have hinv : self.lastSwitchTime + durationAt self.phases self.currentPhase <
      self.lastSwitchTime + self.MaxPhaseDuration + self.LowDensityExtendTime := by
    linarith
  obtain ⟨t, h1, h2, h3⟩ := switchTime_bounded traffic self hne hdone n 0 _ hreach hinv
  exact ⟨n + 1, t, h1, h2, h3⟩

/-- The instance of the amended C5 for the crossing in mode 2 with a vehicle near the
stop line at every firing. -/
theorem extension_bounded_witness :
    ∃ fuel t,
      switchTime (fun _ => oneVehicle) fuel lowDensity4 0
        (lowDensity4.lastSwitchTime +
          durationAt lowDensity4.phases lowDensity4.currentPhase) = some t ∧
      lowDensity4.lastSwitchTime +
        durationAt lowDensity4.phases lowDensity4.currentPhase ≤ t ∧
      t < lowDensity4.lastSwitchTime + lowDensity4.MaxPhaseDuration +
        lowDensity4.LowDensityExtendTime :=
  extension_bounded lowDensity4 (fun _ => oneVehicle)
    (by simp [lowDensity4, built4, TrafficLightRouter.build, plan4])
    rfl
    (by norm_num [lowDensity4])
    (by norm_num [durationAt, lowDensity4, built4, TrafficLightRouter.build, plan4])

/-! ## The cycle totals -/

theorem init_built4 :
    TrafficLightRouter.initialize (blank.build "n" "static" "0" 0 plan4 crossing) 0
        ⟨1, 30, 5, 12⟩ 0 =
      some (highDensity4,
        [Effect.scheduleAt 30 tlEvt, Effect.scheduleAt 10 tlSwitchEvt]) := by
  simp [TrafficLightRouter.build, TrafficLightRouter.initialize, plan4, highDensity4, built4]

theorem HighDensityRecalculate_highDensity4 :
    highDensity4.HighDensityRecalculate tenVehicles = some recalculated4 := by
  have hc : highDensity4.phaseVehicleCounts tenVehicles = some ([8, 0, 2, 0], 10) := by
    simp [TrafficLightRouter.phaseVehicleCounts, addEdges, addLanes, addGreenPhases,
      highDensity4, built4, TrafficLightRouter.build, crossing, netOf, plan4, tenVehicles]
  have hn : highDensity4.nonTransitionalCycleDuration = 20 := by
    norm_num [highDensity4, built4, TrafficLightRouter.build, plan4, buildLoop]
  have hp : highDensity4.phases = plan4 := rfl
  simp only [TrafficLightRouter.HighDensityRecalculate, hc, hn, hp]
  norm_num [setDurations, plan4, newDuration, recalculated4, hn]

theorem handleMessages_highDensity4 :
    handleMessages highDensity4 [⟨tlEvt, 30, tenVehicles⟩] =
      some (recalculated4, [Effect.scheduleAt 60 tlEvt]) := by
  simp only [handleMessages, TrafficLightRouter.handleMessage,
    HighDensityRecalculate_highDensity4]
  norm_num [highDensity4, built4, TrafficLightRouter.build, tlEvt, recalculated4]

/-- C6, as stated, fails: after `build` with the plan of durations 10, 3, 10, 3 and
`initialize` in mode 1, one recalculation event with eight vehicles on the lane of
phase 0 and two on the lane of phase 2 sets the durations to 32, 3, 8, 3, while
`cycleDuration` is still 26 (not 46) and `nonTransitionalCycleDuration` still 20
(not 40). -/
theorem totals_stale_after_recalculation :
    TrafficLightRouter.initialize (blank.build "n" "static" "0" 0 plan4 crossing) 0
        ⟨1, 30, 5, 12⟩ 0 =
      some (highDensity4,
        [Effect.scheduleAt 30 tlEvt, Effect.scheduleAt 10 tlSwitchEvt]) ∧
    handleMessages highDensity4 [⟨tlEvt, 30, tenVehicles⟩] =
      some (recalculated4, [Effect.scheduleAt 60 tlEvt]) ∧
    recalculated4.phases.map Phase.duration = [32, 3, 8, 3] ∧
    recalculated4.cycleDuration = 26 ∧ sumDurations recalculated4.phases = 46 ∧
    recalculated4.nonTransitionalCycleDuration = 20 ∧
    sumEvenDurations recalculated4.phases = 40 := by
  refine ⟨init_built4, handleMessages_highDensity4, ?_, ?_, ?_, ?_, ?_⟩
  · simp [recalculated4]
  · norm_num [recalculated4, highDensity4, built4, TrafficLightRouter.build, plan4, buildLoop]
  · norm_num [recalculated4, sumDurations]
  · norm_num [recalculated4, highDensity4, built4, TrafficLightRouter.build, plan4, buildLoop]
  · norm_num [recalculated4, sumEvenDurations, Finset.sum_range_succ, durationAt]

/-- C6, amended: in every state reached from `build` and `initialize` by any sequence of
timer events, `cycleDuration` is the sum of the phase durations given to `build` and
`nonTransitionalCycleDuration` the sum of those at even indices; outside mode 1, where
no recalculation runs, the phases are those given to `build`, so both totals also agree
with the current durations. -/
theorem totals_fixed_by_build (self : TrafficLightRouter) (id type programID : String)
    (offset : ℚ) (phases : List Phase) (net : Net) (stage : Int) (par : Params) (t : ℚ)
    (s1 s : TrafficLightRouter) (effects1 effects : List Effect) (events : List Event)
    (hinit : TrafficLightRouter.initialize (self.build id type programID offset phases net)
      stage par t = some (s1, effects1))
    (hrun : handleMessages s1 events = some (s, effects)) :
    s.cycleDuration = sumDurations phases ∧
    s.nonTransitionalCycleDuration = sumEvenDurations phases ∧
    (s1.TLLogicMode ≠ 1 →
      s.phases = phases ∧ s.cycleDuration = sumDurations s.phases ∧
      s.nonTransitionalCycleDuration = sumEvenDurations s.phases) := by
  obtain ⟨a1, a2, a3, _, _, _⟩ := init_frame _ _ _ _ _ _ hinit
  obtain ⟨b1, b2, _, _, b5⟩ := handleMessages_frame events s1 s effects hrun
  have hc : (self.build id type programID offset phases net).cycleDuration =
      sumDurations phases := by
    show (buildLoop phases 0 (0, 0)).1 = sumDurations phases
    rw [buildLoop_eq]
    simp
  have hn : (self.build id type programID offset phases net).nonTransitionalCycleDuration =
      sumEvenDurations phases := by
    show (buildLoop phases 0 (0, 0)).2 = sumEvenDurations phases
    rw [buildLoop_eq, sumEvenFrom_zero]
    simp
  have hp : s1.phases = phases := a3
  have e1 : s.cycleDuration = sumDurations phases := by rw [b1, a1, hc]
  have e2 : s.nonTransitionalCycleDuration = sumEvenDurations phases := by rw [b2, a2, hn]
  refine ⟨e1, e2, fun hm => ?_⟩
  have e3 : s.phases = phases := by rw [b5 hm, hp]
  exact ⟨e3, by rw [e1, e3], by rw [e2, e3]⟩

/-- The instance of the amended C6 for the run in which a recalculation changes the
durations: the totals are those of the plan given to `build`. -/
theorem totals_fixed_by_build_witness :
    recalculated4.cycleDuration = sumDurations plan4 ∧
    recalculated4.nonTransitionalCycleDuration = sumEvenDurations plan4 :=
  have h := totals_fixed_by_build blank "n" "static" "0" 0 plan4 crossing 0 ⟨1, 30, 5, 12⟩ 0
    highDensity4 recalculated4 _ _ [⟨tlEvt, 30, tenVehicles⟩] init_built4
    handleMessages_highDensity4
  ⟨h.1, h.2.1⟩

/-! ## The phase at a given time -/

theorem currentPhaseAtTimeLoop_stop (phases : List Phase) (time : ℚ) (fuel phase : Nat)
    (curTime : Int) (h : time < (curTime : ℚ)) :
    currentPhaseAtTimeLoop phases time (fuel + 1) phase curTime = some (phase, curTime) := by
  simp [currentPhaseAtTimeLoop, not_le.mpr h]

theorem currentPhaseAtTimeLoop_step (phases : List Phase) (time : ℚ) (fuel phase : Nat)
    (curTime : Int) (p : Phase) (h : (curTime : ℚ) ≤ time)
    (hp : phases[(phase + 1) % phases.length]? = some p) :
    currentPhaseAtTimeLoop phases time (fuel + 1) phase curTime =
      currentPhaseAtTimeLoop phases time fuel ((phase + 1) % phases.length)
        (toInt ((curTime : ℚ) + p.duration)) := by
  simp [currentPhaseAtTimeLoop, h, hp]

/-- C8 fails on the code: with the plan of durations 10.5 and 3, entered in phase 0 at
time 0, the query time 10.2 lies in phase 0 (which ends at 10.5, so 0.3 s remain), but
`currentPhaseAtTime` keeps the end of the phase in an `int`: it starts from 10, finds
`10.2 >= 10`, moves on and returns phase 1 with 2.8 s remaining, for every number of
loop tests allowed beyond the two it needs. -/
theorem currentPhaseAtTime_truncates :
    fractional2.phases ≠ [] ∧ (∀ p ∈ fractional2.phases, 0 < p.duration) ∧
    fractional2.lastSwitchTime ≤ 51 / 5 ∧
    (51 / 5 : ℚ) < fractional2.lastSwitchTime +
      durationAt fractional2.phases fractional2.currentPhase ∧
    fractional2.currentPhase = 0 ∧
    fractional2.lastSwitchTime +
      durationAt fractional2.phases fractional2.currentPhase - 51 / 5 = 3 / 10 ∧
    ∀ fuel, fractional2.currentPhaseAtTime (51 / 5) (fuel + 2) = some (1, 14 / 5) := by
  have hl : fractional2.lastSwitchTime = 0 := rfl
  have hc : fractional2.currentPhase = 0 := rfl
  have hp : fractional2.phases = [⟨21 / 2, "G"⟩, ⟨3, "y"⟩] := rfl
  have hd : durationAt fractional2.phases fractional2.currentPhase = 21 / 2 := by
    rw [hp, hc]
    rfl
  refine ⟨by simp [hp], ?_, ?_, ?_, rfl, ?_, ?_⟩
  · intro p hmem
    simp only [hp, List.mem_cons, List.mem_singleton, List.not_mem_nil, or_false] at hmem
    rcases hmem with rfl | rfl <;> norm_num
  · rw [hl]
    norm_num
  · rw [hl, hd]
    norm_num
  · rw [hl, hd]
    norm_num
  · intro fuel
    have h1 : toInt ((0 : ℚ) + 21 / 2) = 10 := by
      norm_num [toInt, Int.floor_eq_iff]
    have h2 : toInt (((10 : Int) : ℚ) + 3) = 13 := by
      norm_num [toInt, Int.floor_eq_iff]
    have hstep : currentPhaseAtTimeLoop [⟨21 / 2, "G"⟩, ⟨3, "y"⟩] (51 / 5) (fuel + 1 + 1) 0 10 =
        some (1, 13) := by
      rw [currentPhaseAtTimeLoop_step _ _ _ _ _ ⟨3, "y"⟩ (by norm_num) (by rfl)]
      show currentPhaseAtTimeLoop _ _ (fuel + 1) 1 (toInt (((10 : Int) : ℚ) + 3)) = _
      rw [h2, currentPhaseAtTimeLoop_stop _ _ _ _ _ (by norm_num)]
    simp only [TrafficLightRouter.currentPhaseAtTime, hp, hc, hl, List.getElem?_cons_zero, h1]
    rw [hstep]
    norm_num

/-! ## Redistribution: what a returning call implies -/

theorem addGreenPhases_some (v : Int) (gp : List Int) (acc acc1 : List ℚ × Int)
    (h : addGreenPhases v gp acc = some acc1) :
    (∀ it ∈ gp, 0 ≤ it ∧ it < (acc.1.length : Int)) ∧ acc1.1.length = acc.1.length := by
  induction gp generalizing acc with
  | nil =>
    simp only [addGreenPhases, Option.some.injEq] at h
    subst h
    exact ⟨fun _ hx => absurd hx (List.not_mem_nil _), rfl⟩
  | cons it rest ih =>
    obtain ⟨counts, total⟩ := acc
    rw [addGreenPhases] at h
    split at h
    · next hin =>
      obtain ⟨h1, h2⟩ := ih _ h
      simp only [List.length_set] at h1 h2
      refine ⟨fun x hx => ?_, h2⟩
      rcases List.mem_cons.mp hx with rfl | hx
      · have hlo := hin.1
        have hhi := hin.2
        refine ⟨hlo, ?_⟩
        show x < (counts.length : Int)
        omega
      · exact h1 x hx
    · simp at h

theorem addLanes_some (traci : TraCI) (lanes : List Lane) (acc acc1 : List ℚ × Int)
    (h : addLanes traci lanes acc = some acc1) :
    greenPhasesInRange lanes acc.1.length ∧ acc1.1.length = acc.1.length := by
  induction lanes generalizing acc with
  | nil =>
    simp only [addLanes, Option.some.injEq] at h
    subst h
    exact ⟨fun _ hx => absurd hx (List.not_mem_nil _), rfl⟩
  | cons lane rest ih =>
    rw [addLanes] at h
    split at h
    · simp at h
    · next acc2 h2 =>
      obtain ⟨a1, a2⟩ := addGreenPhases_some _ _ _ _ h2
      obtain ⟨b1, b2⟩ := ih _ h
      rw [a2] at b1 b2
      refine ⟨fun l hl => ?_, b2⟩
      rcases List.mem_cons.mp hl with rfl | hl
      · exact a1
      · exact b1 l hl

theorem addEdges_some (traci : TraCI) (edges : List Edge) (acc acc1 : List ℚ × Int)
    (h : addEdges traci edges acc = some acc1) :
    greenPhasesInRange (edges.flatMap Edge.lanes) acc.1.length ∧
      acc1.1.length = acc.1.length := by
  induction edges generalizing acc with
  | nil =>
    simp only [addEdges, Option.some.injEq] at h
    subst h
    exact ⟨fun _ hx => by simp at hx, rfl⟩
  | cons edge rest ih =>
    rw [addEdges] at h
    split at h
    · simp at h
    · next acc2 h2 =>
      obtain ⟨a1, a2⟩ := addLanes_some _ _ _ _ h2
      obtain ⟨b1, b2⟩ := ih _ h
      rw [a2] at b1 b2
      refine ⟨fun l hl => ?_, b2⟩
      have hsplit : (edge :: rest).flatMap Edge.lanes =
          edge.lanes ++ rest.flatMap Edge.lanes := by
        simp [List.flatMap]
      rw [hsplit] at hl
      rcases List.mem_append.mp hl with hl | hl
      · exact a1 l hl
      · exact b1 l hl

theorem phaseVehicleCounts_some (self : TrafficLightRouter) (traci : TraCI)
    (acc : List ℚ × Int) (h : self.phaseVehicleCounts traci = some acc) :
    greenPhasesInRange (incomingLanes self) self.phases.length := by
  have := (addEdges_some traci _ _ _ h).1
  simpa [incomingLanes] using this

/-- A returning call of `HighDensityRecalculate`: the green-phase indices are in range,
the histogram is the one named by the specification, and the result is the object with
the redistributed phases when `total > 0`, the object itself otherwise. -/
theorem HighDensityRecalculate_eq (self s : TrafficLightRouter) (traci : TraCI)
    (h : self.HighDensityRecalculate traci = some s) :
    greenPhasesInRange (incomingLanes self) self.phases.length ∧
    ∃ counts : List ℚ,
      self.phaseVehicleCounts traci = some (counts, totalDemand self traci) ∧
      counts.length = self.phases.length ∧
      (∀ p : Nat, counts.getD p 0 = (phaseDemand self traci p : ℚ)) ∧
      (0 < totalDemand self traci →
        s = { self with
              phases := setDurations counts (totalDemand self traci)
                self.nonTransitionalCycleDuration self.phases 0 }) ∧
      (¬ 0 < totalDemand self traci → s = self) := by
  have hr : greenPhasesInRange (incomingLanes self) self.phases.length := by
    unfold TrafficLightRouter.HighDensityRecalculate at h
    split at h
    · simp at h
    · next counts total hc => exact phaseVehicleCounts_some self traci _ hc
  obtain ⟨counts, h1, h2, h3⟩ := phaseVehicleCounts_eq self traci hr
  refine ⟨hr, counts, h1, h2, h3, fun hpos => ?_, fun hneg => ?_⟩
  · simp only [TrafficLightRouter.HighDensityRecalculate, h1, gt_iff_lt, hpos, if_true,
      Option.some.injEq] at h
    exact h.symm
  · simp only [TrafficLightRouter.HighDensityRecalculate, h1, gt_iff_lt, hneg, if_false,
      Option.some.injEq] at h
    exact h.symm

theorem HighDensityRecalculate_isSome (self : TrafficLightRouter) (traci : TraCI)
    (hr : greenPhasesInRange (incomingLanes self) self.phases.length) :
    ∃ s, self.HighDensityRecalculate traci = some s := by
  obtain ⟨counts, h1, _, _⟩ := phaseVehicleCounts_eq self traci hr
  by_cases hpos : 0 < totalDemand self traci
  · exact ⟨{ self with
        phases := setDurations counts (totalDemand self traci)
          self.nonTransitionalCycleDuration self.phases 0 },
      by simp [TrafficLightRouter.HighDensityRecalculate, h1, hpos]⟩
  · exact ⟨self, by simp [TrafficLightRouter.HighDensityRecalculate, h1, hpos]⟩

theorem getElem?_setDurations (counts : List ℚ) (total : Int) (n : ℚ) (ps : List Phase)
    (k j : Nat) :
    (setDurations counts total n ps k)[j]? =
      (ps[j]?).map fun p =>
        if (k + j) % 2 = 0 then
          { p with duration := newDuration (counts.getD (k + j) 0) total n }
        else p := by
  induction ps generalizing k j with
  | nil => simp [setDurations]
  | cons p ps ih =>
    cases j with
    | zero => simp [setDurations]
    | succ j =>
      rw [setDurations, List.getElem?_cons_succ, List.getElem?_cons_succ, ih (k + 1) j]
      have e : k + 1 + j = k + (j + 1) := by omega
      rw [e]

theorem setDurations_idem (counts : List ℚ) (total : Int) (n : ℚ) (ps : List Phase)
    (k : Nat) :
    setDurations counts total n (setDurations counts total n ps k) k =
      setDurations counts total n ps k := by
  induction ps generalizing k with
  | nil => rfl
  | cons p ps ih =>
    rw [setDurations, setDurations, ih (k + 1)]
    by_cases hk : k % 2 = 0 <;> simp [hk]

/-- A returning call of `HighDensityRecalculate` leaves the phases at odd indices as they
are. -/
theorem HighDensityRecalculate_odd (self s : TrafficLightRouter) (traci : TraCI)
    (h : self.HighDensityRecalculate traci = some s) (i : Nat) (hodd : i % 2 = 1) :
    s.phases[i]? = self.phases[i]? := by
  obtain ⟨_, counts, _, _, _, hpos, hneg⟩ := HighDensityRecalculate_eq self s traci h
  by_cases ht : 0 < totalDemand self traci
  · rw [hpos ht]
    show (setDurations counts (totalDemand self traci) self.nonTransitionalCycleDuration
      self.phases 0)[i]? = self.phases[i]?
    rw [getElem?_setDurations]
    have hne : ¬ ((0 + i) % 2 = 0) := by omega
    simp only [hne, if_false]
    cases self.phases[i]? <;> rfl
  · rw [hneg ht]

/-- A returning call of `HighDensityRecalculate` with `total > 0` writes `newDuration`
at every even index. -/
theorem HighDensityRecalculate_even (self s : TrafficLightRouter) (traci : TraCI)
    (h : self.HighDensityRecalculate traci = some s) (ht : 0 < totalDemand self traci)
    (i : Nat) (hi : i < self.phases.length) (heven : i % 2 = 0) :
    durationAt s.phases i =
      newDuration (phaseDemand self traci i : ℚ) (totalDemand self traci)
        self.nonTransitionalCycleDuration := by
  obtain ⟨_, counts, _, _, hc, hpos, _⟩ := HighDensityRecalculate_eq self s traci h
  rw [hpos ht]
  show durationAt (setDurations counts (totalDemand self traci)
    self.nonTransitionalCycleDuration self.phases 0) i = _
  rw [durationAt_setDurations _ _ _ _ _ _ hi]
  simp only [zero_add, heven, if_true]
  rw [hc i]

theorem durationAt_congr (ps qs : List Phase) (i : Nat) (h : ps[i]? = qs[i]?) :
    durationAt ps i = durationAt qs i := by
  simp only [durationAt, h]

/-- C11: when the total of the contributions is positive, after
`HighDensityRecalculate` no phase at an even index has a duration below 3: this holds of
every result the call returns, and the call returns when the green-phase indices are
indices of the plan. -/
theorem HighDensityRecalculate_floor (self : TrafficLightRouter) (traci : TraCI)
    (htotal : 0 < totalDemand self traci) :
    (∀ s, self.HighDensityRecalculate traci = some s →
      ∀ i, i < self.phases.length → i % 2 = 0 → 3 ≤ durationAt s.phases i) ∧
    (greenPhasesInRange (incomingLanes self) self.phases.length →
      ∃ s, self.HighDensityRecalculate traci = some s) := by
  refine ⟨fun s h i hi heven => ?_, HighDensityRecalculate_isSome self traci⟩
  rw [HighDensityRecalculate_even self s traci h htotal i hi heven, newDuration_eq_max]
  exact le_max_right _ _

/-- C12: `HighDensityRecalculate` leaves every phase at an odd index as it is, its
duration in particular: this holds of every result the call returns, and the call returns
when the green-phase indices are indices of the plan. -/
theorem HighDensityRecalculate_odd_unchanged (self : TrafficLightRouter) (traci : TraCI) :
    (∀ s, self.HighDensityRecalculate traci = some s →
      ∀ i, i % 2 = 1 →
        s.phases[i]? = self.phases[i]? ∧ durationAt s.phases i = durationAt self.phases i) ∧
    (greenPhasesInRange (incomingLanes self) self.phases.length →
      ∃ s, self.HighDensityRecalculate traci = some s) := by
  refine ⟨fun s h i hodd => ?_, HighDensityRecalculate_isSome self traci⟩
  have hget := HighDensityRecalculate_odd self s traci h i hodd
  exact ⟨hget, durationAt_congr _ _ _ hget⟩

/-- C20: `HighDensityRecalculate` is idempotent for a fixed traffic snapshot: running it
again on its own result with the same snapshot returns that result unchanged (and when
the first run does not return, neither does the sequence). -/
theorem HighDensityRecalculate_idempotent (self : TrafficLightRouter) (traci : TraCI) :
    ((self.HighDensityRecalculate traci).bind fun s => s.HighDensityRecalculate traci) =
      self.HighDensityRecalculate traci := by
  cases h : self.HighDensityRecalculate traci with
  | none => rfl
  | some s =>
    show s.HighDensityRecalculate traci = some s
    obtain ⟨_, counts, hc, _, _, hpos, hneg⟩ := HighDensityRecalculate_eq self s traci h
    by_cases ht : 0 < totalDemand self traci
    · have hs := hpos ht
      have hc1 : s.phaseVehicleCounts traci = some (counts, totalDemand self traci) := by
        rw [← hc, hs]
        simp only [TrafficLightRouter.phaseVehicleCounts, setDurations_length]
      rw [TrafficLightRouter.HighDensityRecalculate, hc1]
      simp only [gt_iff_lt, ht, if_true]
      rw [hs]
      simp only [setDurations_idem]
    · have hs := hneg ht
      rw [hs] at h ⊢
      exact h

theorem totalDemand_highDensity4 : totalDemand highDensity4 tenVehicles = 10 := by
  simp [totalDemand, lanesTotal, vehiclesOn, incomingLanes, highDensity4, built4,
    TrafficLightRouter.build, crossing, netOf, tenVehicles]

/-- The instance of C11 for the crossing with eight and two vehicles: the durations
written at the even indices, 32 and 8, are not below 3. -/
theorem HighDensityRecalculate_floor_witness :
    0 < totalDemand highDensity4 tenVehicles ∧
    highDensity4.HighDensityRecalculate tenVehicles = some recalculated4 ∧
    ∀ i, i < highDensity4.phases.length → i % 2 = 0 →
      3 ≤ durationAt recalculated4.phases i := by
  have hpos : 0 < totalDemand highDensity4 tenVehicles := by
    rw [totalDemand_highDensity4]
    decide
  exact ⟨hpos, HighDensityRecalculate_highDensity4,
    (HighDensityRecalculate_floor highDensity4 tenVehicles hpos).1 recalculated4
      HighDensityRecalculate_highDensity4⟩

/-- The instance of C12 for the crossing with eight and two vehicles: the yellow phase
at index 1 is the same before and after the recalculation. -/
theorem HighDensityRecalculate_odd_unchanged_witness :
    highDensity4.HighDensityRecalculate tenVehicles = some recalculated4 ∧
    recalculated4.phases[1]? = highDensity4.phases[1]? ∧
    durationAt recalculated4.phases 1 = durationAt highDensity4.phases 1 :=
  ⟨HighDensityRecalculate_highDensity4,
    (HighDensityRecalculate_odd_unchanged highDensity4 tenVehicles).1 recalculated4
      HighDensityRecalculate_highDensity4 1 rfl⟩

/-! ## The recalculation event -/

theorem recalculation_event_eq (self : TrafficLightRouter) (now : ℚ) (traci : TraCI)
    (hdone : self.done = false) (hmode : self.TLLogicMode = 1) :
    self.handleMessage tlEvt now traci =
      (self.HighDensityRecalculate traci).map fun s =>
        (s, [Effect.scheduleAt (now + s.HighDensityRecalculateFrequency) tlEvt]) := by
  simp only [TrafficLightRouter.handleMessage, hdone, hmode, tlEvt]
  cases self.HighDensityRecalculate traci <;> simp

/-- C13: in mode 1 with `done = false`, a recalculation event does not touch the phase
in progress.  Whatever the handler returns, `currentPhase` and `lastSwitchTime` are
unchanged, the only field that may differ is `phases`, where the number of phases and
every phase at an odd index are unchanged, and the only effect is one recalculation
timer at `now + HighDensityRecalculateFrequency`: no phase-switch timer is armed and no
`commandSetPhase` is issued.  The handler returns when the green-phase indices are
indices of the plan. -/
theorem handleMessage_recalculation (self : TrafficLightRouter) (now : ℚ) (traci : TraCI)
    (hdone : self.done = false) (hmode : self.TLLogicMode = 1) :
    (∀ s effects, self.handleMessage tlEvt now traci = some (s, effects) →
      s.currentPhase = self.currentPhase ∧ s.lastSwitchTime = self.lastSwitchTime ∧
      s = { self with phases := s.phases } ∧
      s.phases.length = self.phases.length ∧
      (∀ i, i % 2 = 1 → s.phases[i]? = self.phases[i]?) ∧
      effects = [Effect.scheduleAt (now + self.HighDensityRecalculateFrequency) tlEvt] ∧
      timersOf tlEvt effects = [now + self.HighDensityRecalculateFrequency] ∧
      timersOf tlSwitchEvt effects = [] ∧ phasesSet effects = []) ∧
    (greenPhasesInRange (incomingLanes self) self.phases.length →
      ∃ s effects, self.handleMessage tlEvt now traci = some (s, effects)) := by
  rw [recalculation_event_eq self now traci hdone hmode]
  constructor
  · intro s effects h
    cases hr : self.HighDensityRecalculate traci with
    | none => simp [hr] at h
    | some s1 =>
      simp only [hr, Option.map_some', Option.some.injEq, Prod.mk.injEq] at h
      obtain ⟨rfl, rfl⟩ := h
      obtain ⟨ps, hs, hlen⟩ := HighDensityRecalculate_frame self s1 traci hr
      have hodd := fun i hi => HighDensityRecalculate_odd self s1 traci hr i hi
      subst hs
      refine ⟨rfl, rfl, rfl, hlen, hodd, rfl, ?_, ?_, ?_⟩
      · simp [timersOf]
      · simp [timersOf, tlEvt, tlSwitchEvt]
      · simp [phasesSet]
  · intro hrange
    obtain ⟨s, hs⟩ := HighDensityRecalculate_isSome self traci hrange
    exact ⟨s, _, by rw [hs]; rfl⟩

theorem handleMessage_highDensity4 :
    highDensity4.handleMessage tlEvt 30 tenVehicles =
      some (recalculated4, [Effect.scheduleAt 60 tlEvt]) := by
  rw [recalculation_event_eq highDensity4 30 tenVehicles rfl rfl,
    HighDensityRecalculate_highDensity4]
  norm_num [recalculated4, highDensity4]

/-- The instance of C13 for the crossing in phase 0 since time 0, with a recalculation
event at time 30: the controller is still in phase 0 since time 0 and the only effect is
the recalculation timer at 60. -/
theorem handleMessage_recalculation_witness :
    highDensity4.handleMessage tlEvt 30 tenVehicles =
      some (recalculated4, [Effect.scheduleAt 60 tlEvt]) ∧
    recalculated4.currentPhase = highDensity4.currentPhase ∧
    recalculated4.lastSwitchTime = highDensity4.lastSwitchTime ∧
    timersOf tlSwitchEvt [Effect.scheduleAt 60 tlEvt] = [] ∧
    phasesSet [Effect.scheduleAt 60 tlEvt] = [] := by
  have h := (handleMessage_recalculation highDensity4 30 tenVehicles rfl rfl).1
    recalculated4 _ handleMessage_highDensity4
  exact ⟨handleMessage_highDensity4, h.1, h.2.1, h.2.2.2.2.2.2.2.1, h.2.2.2.2.2.2.2.2⟩

/-! ## The durations before the floor -/

/-- C15: for every histogram and every `total > 0` such that the counts at the even
indices sum to `total`, the durations before the floor,
`(count i / total) * 2 * nonTransitionalCycleDuration`, summed over the even indices,
give `2 * nonTransitionalCycleDuration`; these are the values that line 145 of
`HighDensityRecalculate` compares with 3. -/
theorem proportional_sum (counts : List ℚ) (total : Int) (n : ℚ) (htotal : 0 < total)
    (hsum : sumEvenCounts counts = (total : ℚ)) :
    sumEvenProportional counts total n = 2 * n ∧
    ∀ i, newDuration (counts.getD i 0) total n =
      max (proportionalDuration (counts.getD i 0) total n) 3 := by
  have hne : (total : ℚ) ≠ 0 := by
    have : (0 : ℚ) < (total : ℚ) := by exact_mod_cast htotal
    exact ne_of_gt this
  constructor
  · have hterm : ∀ i ∈ Finset.range counts.length,
        (if i % 2 = 0 then proportionalDuration (counts.getD i 0) total n else 0) =
          (if i % 2 = 0 then counts.getD i 0 else 0) * (2 * n / (total : ℚ)) := by
      intro i _
      by_cases h : i % 2 = 0
      · simp only [h, if_true, proportionalDuration]
        field_simp
        ring
      · simp only [h, if_false, zero_mul]
    rw [sumEvenProportional, Finset.sum_congr rfl hterm, ← Finset.sum_mul]
    have hs : (∑ i ∈ Finset.range counts.length, if i % 2 = 0 then counts.getD i 0 else 0) =
        (total : ℚ) := hsum
    rw [hs]
    field_simp
  · intro i
    exact newDuration_eq_max _ _ _

/-- The instance of C15 for the histogram `[8, 0, 2, 0]` with `total = 10` and
`nonTransitionalCycleDuration = 20`: 32 + 8 = 40. -/
theorem proportional_sum_witness :
    sumEvenProportional [8, 0, 2, 0] 10 20 = 2 * 20 ∧
    ∀ i, newDuration (([8, 0, 2, 0] : List ℚ).getD i 0) 10 20 =
      max (proportionalDuration (([8, 0, 2, 0] : List ℚ).getD i 0) 10 20) 3 :=
  proportional_sum [8, 0, 2, 0] 10 20 (by decide)
    (by norm_num [sumEvenCounts, Finset.sum_range_succ])

/-! ## The index of the current phase -/

theorem handleMessage_currentPhase (self s : TrafficLightRouter) (msg : cMessage) (now : ℚ)
    (traci : TraCI) (effects : List Effect)
    (h : self.handleMessage msg now traci = some (s, effects)) :
    s.done = self.done ∧
    (s.currentPhase = self.currentPhase ∨
      (self.phases ≠ [] ∧ s.currentPhase = (self.currentPhase + 1) % self.phases.length)) := by
  unfold TrafficLightRouter.handleMessage at h
  split_ifs at h with h1 h2 h3 h4 h5 h6
  · split at h
    · simp at h
    · next s1 hs1 =>
      obtain ⟨ps, rfl, _⟩ := HighDensityRecalculate_frame self s1 traci hs1
      simp only [Option.some.injEq, Prod.mk.injEq] at h
      obtain ⟨rfl, _⟩ := h
      exact ⟨rfl, Or.inl rfl⟩
  · simp only [Option.some.injEq, Prod.mk.injEq] at h
    obtain ⟨rfl, _⟩ := h
    exact ⟨rfl, Or.inl rfl⟩
  · simp only [Option.some.injEq, Prod.mk.injEq] at h
    obtain ⟨rfl, _⟩ := h
    exact ⟨rfl, Or.inl rfl⟩
  · simp only at h
    split at h
    · simp at h
    · simp only [Option.some.injEq, Prod.mk.injEq] at h
      obtain ⟨rfl, _⟩ := h
      exact ⟨rfl, Or.inr ⟨fun e => h6 (by rw [e]; rfl), rfl⟩⟩
  · simp only [Option.some.injEq, Prod.mk.injEq] at h
    obtain ⟨rfl, _⟩ := h
    exact ⟨rfl, Or.inl rfl⟩
  · simp only [Option.some.injEq, Prod.mk.injEq] at h
    obtain ⟨rfl, _⟩ := h
    exact ⟨rfl, Or.inl rfl⟩

theorem call_currentPhase (self s : TrafficLightRouter) (c : Call)
    (h : self.call c = some s) (hlt : self.currentPhase < self.phases.length) :
    s.currentPhase < s.phases.length ∧ s.phases.length = self.phases.length := by
  cases c with
  | init stage par simTime =>
    simp only [TrafficLightRouter.call, Option.map_eq_some', Prod.exists, exists_and_right,
      exists_eq_right] at h
    obtain ⟨effects, h⟩ := h
    obtain ⟨_, _, hp, _, hc, _⟩ := init_frame self s stage par simTime effects h
    rw [hp, hc]
    exact ⟨hlt, rfl⟩
  | handleMessage msg simTime traci =>
    simp only [TrafficLightRouter.call, Option.map_eq_some', Prod.exists, exists_and_right,
      exists_eq_right] at h
    obtain ⟨effects, h⟩ := h
    obtain ⟨_, _, _, hlen, _⟩ := handleMessage_frame self s msg simTime traci effects h
    obtain ⟨_, hc | ⟨_, hc⟩⟩ := handleMessage_currentPhase self s msg simTime traci effects h
    · rw [hlen, hc]
      exact ⟨hlt, rfl⟩
    · rw [hlen, hc]
      exact ⟨Nat.mod_lt _ (by omega), rfl⟩
  | finish =>
    simp only [TrafficLightRouter.call, Option.some.injEq] at h
    subst h
    exact ⟨hlt, rfl⟩

theorem calls_currentPhase (cs : List Call) (self s : TrafficLightRouter)
    (h : calls self cs = some s) (hlt : self.currentPhase < self.phases.length) :
    s.currentPhase < s.phases.length ∧ s.phases.length = self.phases.length := by
  induction cs generalizing self with
  | nil =>
    simp only [calls, Option.some.injEq] at h
    subst h
    exact ⟨hlt, rfl⟩
  | cons c rest ih =>
    rw [calls] at h
    split at h
    · simp at h
    · next s1 h1 =>
      obtain ⟨a1, a2⟩ := call_currentPhase self s1 c h1 hlt
      obtain ⟨b1, b2⟩ := ih s1 h a1
      exact ⟨b1, b2.trans a2⟩

/-- C17: for every non-empty plan, in every state reached from `build` by any sequence
of calls of `initialize`, of `handleMessage` (recalculation events, phase-switch events
or any other message, at any time and in any traffic) and of `finish`, `currentPhase`
is an index of the plan: `0 <= currentPhase < len(phases)`, and the plan still has the
number of phases given to `build`. -/
theorem currentPhase_in_range (self : TrafficLightRouter) (id type programID : String)
    (offset : ℚ) (phases : List Phase) (net : Net) (hne : phases ≠ [])
    (cs : List Call) (s : TrafficLightRouter)
    (h : calls (self.build id type programID offset phases net) cs = some s) :
    0 ≤ s.currentPhase ∧ s.currentPhase < s.phases.length ∧
      s.phases.length = phases.length := by
  have h0 : (self.build id type programID offset phases net).currentPhase <
      (self.build id type programID offset phases net).phases.length := by
    show 0 < phases.length
    exact List.length_pos.mpr hne
  obtain ⟨h1, h2⟩ := calls_currentPhase cs _ s h h0
  exact ⟨Nat.zero_le _, h1, h2⟩

/-- The instance of C17 for the four-phase plan: after `initialize` in mode 0, a
phase-switch event at time 10 and `finish`, the controller is in phase 1 of 4. -/
theorem currentPhase_in_range_witness :
    calls (blank.build "n" "static" "0" 0 plan4 crossing)
      [Call.init 0 ⟨0, 30, 5, 12⟩ 0, Call.handleMessage tlSwitchEvt 10 noVehicle,
        Call.finish] =
      some { built4 with
        HighDensityRecalculateFrequency := 30, LowDensityExtendTime := 5,
        MaxPhaseDuration := 12, lastSwitchTime := 10, currentPhase := 1, done := true } ∧
    (0 ≤ 1 ∧ 1 < 4 ∧ 4 = plan4.length) := by
  have hrun : calls (blank.build "n" "static" "0" 0 plan4 crossing)
      [Call.init 0 ⟨0, 30, 5, 12⟩ 0, Call.handleMessage tlSwitchEvt 10 noVehicle,
        Call.finish] =
      some { built4 with
        HighDensityRecalculateFrequency := 30, LowDensityExtendTime := 5,
        MaxPhaseDuration := 12, lastSwitchTime := 10, currentPhase := 1, done := true } := by
    simp [calls, TrafficLightRouter.call, TrafficLightRouter.build,
      TrafficLightRouter.initialize, TrafficLightRouter.handleMessage,
      TrafficLightRouter.switchDelayed, TrafficLightRouter.finish, plan4, built4,
      tlSwitchEvt, blank]
  exact ⟨hrun, currentPhase_in_range blank "n" "static" "0" 0 plan4 crossing
    (by simp [plan4]) _ _ hrun⟩

/-! ## build on an empty plan -/

/-- C14, as stated, fails: `build` with `phases = []` reports nothing and returns a
controller with `done = false`; `initialize` in mode 0 accepts it, and the controller
then handles a recalculation event like any other controller in mode 0. -/
theorem build_accepts_empty_plan :
    (blank.build "n" "static" "0" 0 [] crossing).phases = [] ∧
    (blank.build "n" "static" "0" 0 [] crossing).done = false ∧
    TrafficLightRouter.initialize (blank.build "n" "static" "0" 0 [] crossing) 0
        ⟨0, 0, 0, 0⟩ 0 =
      some (blank.build "n" "static" "0" 0 [] crossing, []) ∧
    (blank.build "n" "static" "0" 0 [] crossing).handleMessage tlEvt 30 noVehicle =
      some (blank.build "n" "static" "0" 0 [] crossing, []) := by
  refine ⟨rfl, rfl, ?_, ?_⟩
  · simp [TrafficLightRouter.build, TrafficLightRouter.initialize, blank]
  · simp [TrafficLightRouter.build, TrafficLightRouter.handleMessage, blank, tlEvt]

/-- C14, amended: `build` does not check its argument.  For `phases = []` it returns a
controller without phases, with both cycle totals 0, `currentPhase = 0`,
`lastSwitchTime = 0` and `done = false`; in a mode other than 1 and 2 `initialize`
accepts this controller, arms no timer and leaves it without phases. -/
theorem build_empty_plan (self : TrafficLightRouter) (id type programID : String)
    (offset : ℚ) (net : Net) :
    (self.build id type programID offset [] net).phases = [] ∧
    (self.build id type programID offset [] net).cycleDuration = 0 ∧
    (self.build id type programID offset [] net).nonTransitionalCycleDuration = 0 ∧
    (self.build id type programID offset [] net).currentPhase = 0 ∧
    (self.build id type programID offset [] net).lastSwitchTime = 0 ∧
    (self.build id type programID offset [] net).done = false ∧
    ∀ (stage : Int) (par : Params) (t : ℚ), par.TLLogicMode ≠ 1 → par.TLLogicMode ≠ 2 →
      ∃ s, TrafficLightRouter.initialize (self.build id type programID offset [] net)
          stage par t = some (s, []) ∧ s.phases = [] ∧ s.done = false := by
  refine ⟨rfl, rfl, rfl, rfl, rfl, rfl, fun stage par t h1 h2 => ?_⟩
  unfold TrafficLightRouter.initialize
  dsimp only
  split_ifs
  · exact ⟨_, rfl, rfl, rfl⟩
  · exact ⟨_, rfl, rfl, rfl⟩
  · exact ⟨_, rfl, rfl, rfl⟩

/-- The instance of the amended C14 for mode 0. -/
theorem build_empty_plan_witness :
    ∃ s, TrafficLightRouter.initialize (blank.build "n" "static" "0" 0 [] crossing)
      0 ⟨0, 30, 5, 12⟩ 0 = some (s, []) ∧ s.phases = [] ∧ s.done = false :=
  (build_empty_plan blank "n" "static" "0" 0 crossing).2.2.2.2.2.2 0 ⟨0, 30, 5, 12⟩ 0
    (by decide) (by decide)

/-! ## Termination of the walk through the cycle -/

theorem currentPhaseAtTimeLoop_subSecond (fuel phase : Nat) :
    currentPhaseAtTimeLoop [⟨1 / 2, "G"⟩, ⟨1 / 2, "y"⟩] 1 fuel phase 0 = none := by
  induction fuel generalizing phase with
  | zero => rfl
  | succ fuel ih =>
    have h0 : toInt (((0 : Int) : ℚ) + 1 / 2) = 0 := by
      norm_num [toInt, Int.floor_eq_iff]
    have hlt : (phase + 1) % 2 < 2 := Nat.mod_lt _ (by decide)
    have hp : ∃ p : Phase, ([⟨1 / 2, "G"⟩, ⟨1 / 2, "y"⟩] : List Phase)[(phase + 1) % 2]? =
        some p ∧ p.duration = 1 / 2 := by
      rcases Nat.lt_succ_iff_lt_or_eq.mp hlt with h | h
      · have h' : (phase + 1) % 2 = 0 := by omega
        exact ⟨⟨1 / 2, "G"⟩, by rw [h']; rfl, rfl⟩
      · exact ⟨⟨1 / 2, "y"⟩, by rw [h]; rfl, rfl⟩
    obtain ⟨p, hget, hd⟩ := hp
    rw [currentPhaseAtTimeLoop_step _ _ _ _ _ p (by norm_num) hget, hd, h0]
    exact ih _

/-- C18 fails on the code: with the plan of two phases of 0.5 s, entered in phase 0 at
time 0, and the query time 1, the `int` that holds the end of the phase is
`(int)(0 + 0.5) = 0` and stays 0 after every `curTime += 0.5`, so the loop condition
`time >= curTime` never fails: whatever the number of loop tests allowed, the walk has
not ended. -/
theorem currentPhaseAtTime_diverges :
    subSecond2.phases ≠ [] ∧ (∀ p ∈ subSecond2.phases, 0 < p.duration) ∧
    subSecond2.currentPhase < subSecond2.phases.length ∧
    subSecond2.lastSwitchTime ≤ 1 ∧
    ∀ fuel, subSecond2.currentPhaseAtTime 1 fuel = none := by
  have hp : subSecond2.phases = [⟨1 / 2, "G"⟩, ⟨1 / 2, "y"⟩] := rfl
  have hc : subSecond2.currentPhase = 0 := rfl
  have hl : subSecond2.lastSwitchTime = 0 := rfl
  refine ⟨by simp [hp], ?_, by rw [hp, hc]; decide, by rw [hl]; norm_num, ?_⟩
  · intro p hmem
    simp only [hp, List.mem_cons, List.mem_singleton, List.not_mem_nil, or_false] at hmem
    rcases hmem with rfl | rfl <;> norm_num
  · intro fuel
    have h0 : toInt ((0 : ℚ) + 1 / 2) = 0 := by
      norm_num [toInt, Int.floor_eq_iff]
    simp only [TrafficLightRouter.currentPhaseAtTime, hp, hc, hl, List.getElem?_cons_zero,
      h0, currentPhaseAtTimeLoop_subSecond]

/-! ## The bound on the redistributed durations -/

theorem lanesDemand_nonneg (traci : TraCI) (p : Nat) (lanes : List Lane) :
    0 ≤ lanesDemand traci p lanes := by
  induction lanes with
  | nil => simp [lanesDemand]
  | cons lane rest ih =>
    have h1 : 0 ≤ vehiclesOn traci lane * (lane.greenPhases.count (p : Int) : Int) :=
      mul_nonneg (by simp [vehiclesOn]) (Int.natCast_nonneg _)
    have e : lanesDemand traci p (lane :: rest) =
        vehiclesOn traci lane * (lane.greenPhases.count (p : Int) : Int) +
          lanesDemand traci p rest := by
      simp [lanesDemand]
    rw [e]
    exact add_nonneg h1 ih

theorem lanesDemand_le_lanesTotal (traci : TraCI) (p : Nat) (lanes : List Lane) :
    lanesDemand traci p lanes ≤ lanesTotal traci lanes := by
  induction lanes with
  | nil => simp [lanesDemand, lanesTotal]
  | cons lane rest ih =>
    have h1 : vehiclesOn traci lane * (lane.greenPhases.count (p : Int) : Int) ≤
        vehiclesOn traci lane * (lane.greenPhases.length : Int) := by
      apply mul_le_mul_of_nonneg_left
      · exact_mod_cast List.count_le_length (p : Int) lane.greenPhases
      · simp [vehiclesOn]
    have e1 : lanesDemand traci p (lane :: rest) =
        vehiclesOn traci lane * (lane.greenPhases.count (p : Int) : Int) +
          lanesDemand traci p rest := by
      simp [lanesDemand]
    have e2 : lanesTotal traci (lane :: rest) =
        vehiclesOn traci lane * (lane.greenPhases.length : Int) + lanesTotal traci rest := by
      simp [lanesTotal]
    rw [e1, e2]
    exact add_le_add h1 ih

/-- The value written by the redistribution is at most `max 3 (2 * n)` when the count
lies between 0 and a positive total. -/
theorem newDuration_le (count total : Int) (n : ℚ) (h0 : 0 ≤ count) (h1 : count ≤ total)
    (ht : 0 < total) : newDuration (count : ℚ) total n ≤ max 3 (2 * n) := by
  rw [newDuration_eq_max]
  have htq : (0 : ℚ) < (total : ℚ) := by exact_mod_cast ht
  have hr0 : (0 : ℚ) ≤ (count : ℚ) / (total : ℚ) :=
    div_nonneg (by exact_mod_cast h0) (le_of_lt htq)
  have hr1 : (count : ℚ) / (total : ℚ) ≤ 1 := by
    rw [div_le_one htq]
    exact_mod_cast h1
  apply max_le
  · by_cases hn : 0 ≤ n
    · have : (count : ℚ) / (total : ℚ) * 2 * n ≤ 2 * n := by
        have := mul_le_mul_of_nonneg_right hr1 (by linarith : (0 : ℚ) ≤ 2 * n)
        linarith
      exact le_trans this (le_max_right _ _)
    · have hn' : n ≤ 0 := le_of_lt (not_le.mp hn)
      have : (count : ℚ) / (total : ℚ) * 2 * n ≤ 0 := by
        have := mul_nonpos_of_nonneg_of_nonpos hr0 (by linarith : 2 * n ≤ 0)
        linarith
      exact le_trans (le_trans this (by norm_num)) (le_max_left _ _)
  · exact le_max_left _ _

/-- One returning recalculation keeps `nonTransitionalCycleDuration` and the number of
phases, and every even phase either keeps its duration or gets one of at most
`max 3 (2 * nonTransitionalCycleDuration)`. -/
theorem HighDensityRecalculate_bounded (self s : TrafficLightRouter) (traci : TraCI)
    (h : self.HighDensityRecalculate traci = some s) :
    s.nonTransitionalCycleDuration = self.nonTransitionalCycleDuration ∧
    s.phases.length = self.phases.length ∧
    ∀ i, i < self.phases.length → i % 2 = 0 →
      durationAt s.phases i = durationAt self.phases i ∨
      durationAt s.phases i ≤ max 3 (2 * self.nonTransitionalCycleDuration) := by
  obtain ⟨ps, hs, hlen⟩ := HighDensityRecalculate_frame self s traci h
  refine ⟨by rw [hs], by rw [hs]; exact hlen, fun i hi heven => ?_⟩
  by_cases ht : 0 < totalDemand self traci
  · right
    rw [HighDensityRecalculate_even self s traci h ht i hi heven]
    exact newDuration_le _ _ _ (lanesDemand_nonneg traci i _)
      (lanesDemand_le_lanesTotal traci i _) ht
  · left
    obtain ⟨_, _, _, _, _, _, hneg⟩ := HighDensityRecalculate_eq self s traci h
    rw [hneg ht]

theorem bounded_from_start (snapshots : List TraCI) (start self s : TrafficLightRouter)
    (h : recalculations self snapshots = some s)
    (hn : self.nonTransitionalCycleDuration = start.nonTransitionalCycleDuration)
    (hlen : self.phases.length = start.phases.length)
    (hinv : ∀ i, i < start.phases.length → i % 2 = 0 →
      durationAt self.phases i = durationAt start.phases i ∨
      durationAt self.phases i ≤ max 3 (2 * start.nonTransitionalCycleDuration)) :
    s.nonTransitionalCycleDuration = start.nonTransitionalCycleDuration ∧
    s.phases.length = start.phases.length ∧
    ∀ i, i < start.phases.length → i % 2 = 0 →
      durationAt s.phases i = durationAt start.phases i ∨
      durationAt s.phases i ≤ max 3 (2 * start.nonTransitionalCycleDuration) := by
  induction snapshots generalizing self with
  | nil =>
    simp only [recalculations, Option.some.injEq] at h
    subst h
    exact ⟨hn, hlen, hinv⟩
  | cons traci rest ih =>
    rw [recalculations] at h
    split at h
    · simp at h
    · next s1 h1 =>
      obtain ⟨a1, a2, a3⟩ := HighDensityRecalculate_bounded self s1 traci h1
      refine ih s1 h (a1.trans hn) (a2.trans hlen) fun i hi heven => ?_
      rcases a3 i (by rw [hlen]; exact hi) heven with e | e
      · rw [e]
        exact hinv i hi heven
      · right
        rw [← hn]
        exact e

/-- C19: after `build`, whatever the sequence of traffic snapshots on which
`HighDensityRecalculate` is run, `nonTransitionalCycleDuration` keeps the value `N`
computed by `build` (the sum of the even-indexed durations given to `build`), and every
even-indexed phase either still has the duration given to `build` or has a duration,
written by a recalculation, of at most `max 3 (2 * N)`. -/
theorem recalculations_bounded (self : TrafficLightRouter) (id type programID : String)
    (offset : ℚ) (phases : List Phase) (net : Net) (snapshots : List TraCI)
    (s : TrafficLightRouter)
    (h : recalculations (self.build id type programID offset phases net) snapshots =
      some s) :
    s.nonTransitionalCycleDuration = sumEvenDurations phases ∧
    s.phases.length = phases.length ∧
    ∀ i, i < phases.length → i % 2 = 0 →
      durationAt s.phases i = durationAt phases i ∨
      durationAt s.phases i ≤ max 3 (2 * sumEvenDurations phases) := by
  have hN : (self.build id type programID offset phases net).nonTransitionalCycleDuration =
      sumEvenDurations phases := by
    show (buildLoop phases 0 (0, 0)).2 = sumEvenDurations phases
    rw [buildLoop_eq, sumEvenFrom_zero]
    simp
  obtain ⟨h1, h2, h3⟩ := bounded_from_start snapshots
    (self.build id type programID offset phases net) _ s h rfl rfl
    (fun _ _ _ => Or.inl rfl)
  rw [hN] at h1 h3
  exact ⟨h1, h2, h3⟩

/-- The instance of C19 for the four-phase plan (`N = 20`) and one recalculation with
eight and two vehicles: the durations 32 and 8 written at the even indices are at most
`max 3 40`. -/
theorem recalculations_bounded_witness :
    recalculations (highDensity4.build "n" "static" "0" 0 plan4 crossing) [tenVehicles] =
      some recalculated4 ∧
    recalculated4.nonTransitionalCycleDuration = sumEvenDurations plan4 ∧
    recalculated4.phases.length = plan4.length ∧
    ∀ i, i < plan4.length → i % 2 = 0 →
      durationAt recalculated4.phases i = durationAt plan4 i ∨
      durationAt recalculated4.phases i ≤ max 3 (2 * sumEvenDurations plan4) := by
  have hrun : recalculations (highDensity4.build "n" "static" "0" 0 plan4 crossing)
      [tenVehicles] = some recalculated4 := by
    show recalculations highDensity4 [tenVehicles] = some recalculated4
    simp [recalculations, HighDensityRecalculate_highDensity4]
  exact ⟨hrun, recalculations_bounded highDensity4 "n" "static" "0" 0 plan4 crossing
    [tenVehicles] recalculated4 hrun⟩

/-! ## The fixed-time cycle -/

theorem switchDelayed_of_mode (self : TrafficLightRouter) (now : ℚ) (traci : TraCI)
    (hmode : self.TLLogicMode ≠ 2) : self.switchDelayed now traci = false := by
  simp [TrafficLightRouter.switchDelayed, hmode]

/-- Outside mode 2, `n` deliveries of the phase-switch timer starting at time `t` in
phase `c`: the `k`-th delivery (from 0) happens at `t` plus the durations of the phases
`c + 1, ..., c + k` (modulo the number of phases) and sets the phase `c + 1 + k`. -/
theorem deliverSwitch_cycle (traffic : Nat → TraCI) (n : Nat) (self : TrafficLightRouter)
    (idx : Nat) (t : ℚ) (hne : self.phases ≠ []) (hdone : self.done = false)
    (hmode : self.TLLogicMode ≠ 2) :
    ∃ firings, deliverSwitch traffic n self idx t = some firings ∧ firings.length = n ∧
      ∀ k, k < n → ∃ effects,
        firings[k]? = some
          (t + ∑ j ∈ Finset.range k,
            durationAt self.phases ((self.currentPhase + 1 + j) % self.phases.length),
           effects) ∧
        phasesSet effects = [(self.currentPhase + 1 + k) % self.phases.length] ∧
        timersOf tlSwitchEvt effects =
          [t + ∑ j ∈ Finset.range (k + 1),
            durationAt self.phases ((self.currentPhase + 1 + j) % self.phases.length)] := by
  induction n generalizing self idx t with
  | zero => exact ⟨[], rfl, rfl, fun k hk => absurd hk (Nat.not_lt_zero k)⟩
  | succ n ih =>
    have hstep := handleMessage_switch_of_not_delayed self t (traffic idx) hne hdone
      (switchDelayed_of_mode self t (traffic idx) hmode)
    obtain ⟨rest, hrest, hlen, hk⟩ := ih
      { self with
        lastSwitchTime := t,
        currentPhase := (self.currentPhase + 1) % self.phases.length }
      (idx + 1)
      (t + durationAt self.phases ((self.currentPhase + 1) % self.phases.length))
      hne hdone hmode
    dsimp only at hk
    refine ⟨(t,
      [Effect.commandSetPhase self.id ((self.currentPhase + 1) % self.phases.length),
       Effect.scheduleAt
         (t + durationAt self.phases ((self.currentPhase + 1) % self.phases.length))
         tlSwitchEvt,
       Effect.commandSetPhaseDurationRemaining self.id 10000000]) :: rest, ?_,
      by rw [List.length_cons, hlen], ?_⟩
    · rw [deliverSwitch, hstep]
      simp only [timersOf, List.filterMap_cons, List.filterMap_nil, if_true]
      rw [hrest]
    · intro k hkn
      cases k with
      | zero =>
        refine ⟨[Effect.commandSetPhase self.id ((self.currentPhase + 1) % self.phases.length),
          Effect.scheduleAt
            (t + durationAt self.phases ((self.currentPhase + 1) % self.phases.length))
            tlSwitchEvt,
          Effect.commandSetPhaseDurationRemaining self.id 10000000], by simp, ?_, ?_⟩
        · simp [phasesSet]
        · simp [timersOf]
      | succ k =>
        obtain ⟨effects, h1, h2, h3⟩ := hk k (by omega)
        have hidx : ∀ j, ((self.currentPhase + 1) % self.phases.length + 1 + j) %
            self.phases.length = (self.currentPhase + 1 + (j + 1)) % self.phases.length := by
          intro j
          rw [add_assoc, Nat.mod_add_mod]
          congr 1
          omega
        simp only [hidx] at h1 h2 h3
        refine ⟨effects, ?_, ?_, ?_⟩
        · rw [List.getElem?_cons_succ, h1, Finset.sum_range_succ' _ k]
          simp only [add_zero]
          congr 2
          ring
        · rw [h2]
        · rw [h3, Finset.sum_range_succ' _ (k + 1)]
          simp only [add_zero]
          congr 1
          ring

theorem cyclicSum_succ (phases : List Phase) (k : Nat) :
    cyclicSum phases (k + 1) =
      durationAt phases 0 +
        ∑ j ∈ Finset.range k, durationAt phases ((0 + 1 + j) % phases.length) := by
  rw [cyclicSum, Finset.sum_range_succ', Nat.zero_mod, add_comm]
  congr 1
  refine Finset.sum_congr rfl fun j _ => ?_
  congr 2
  omega

/-- C16: for every non-empty plan, starting from the state produced by `build` and
`initialize` in a mode other than 2, when the phase-switch timer first fires at
`duration(0)` and is then always delivered at the time armed by the handler, for every
`k >= 1` the `k`-th firing happens at the sum of the durations of the first `k` phases
taken cyclically from index 0, issues `commandSetPhase` with index `k mod len(phases)`
and arms the timer at the sum of the first `k + 1` durations. -/
theorem switch_cycle (self : TrafficLightRouter) (id type programID : String) (offset : ℚ)
    (phases : List Phase) (net : Net) (stage : Int) (par : Params) (t0 : ℚ)
    (s1 : TrafficLightRouter) (effects1 : List Effect) (traffic : Nat → TraCI)
    (hne : phases ≠ [])
    (hinit : TrafficLightRouter.initialize (self.build id type programID offset phases net)
      stage par t0 = some (s1, effects1))
    (hmode : s1.TLLogicMode ≠ 2) (n : Nat) :
    ∃ firings, deliverSwitch traffic n s1 0 (durationAt phases 0) = some firings ∧
      firings.length = n ∧
      ∀ k, 1 ≤ k → k ≤ n → ∃ effects,
        firings[k - 1]? = some (cyclicSum phases k, effects) ∧
        phasesSet effects = [k % phases.length] ∧
        timersOf tlSwitchEvt effects = [cyclicSum phases (k + 1)] := by
  obtain ⟨_, _, hp, hd, hc, _⟩ := init_frame _ s1 stage par t0 effects1 hinit
  have hp1 : s1.phases = phases := hp
  have hd1 : s1.done = false := hd
  have hc1 : s1.currentPhase = 0 := hc
  obtain ⟨firings, h1, h2, h3⟩ := deliverSwitch_cycle traffic n s1 0 (durationAt phases 0)
    (by rw [hp1]; exact hne) hd1 hmode
  refine ⟨firings, h1, h2, fun k hk1 hkn => ?_⟩
  obtain ⟨effects, e1, e2, e3⟩ := h3 (k - 1) (by omega)
  rw [hp1, hc1] at e1 e2 e3
  have hk : k - 1 + 1 = k := by omega
  refine ⟨effects, ?_, ?_, ?_⟩
  · rw [e1, ← cyclicSum_succ, hk]
  · rw [e2]
    congr 2
    omega
  · rw [e3, ← cyclicSum_succ, hk]

theorem init_built2 :
    TrafficLightRouter.initialize (blank.build "n" "static" "0" 0 plan2 (netOf [])) 0
      ⟨0, 0, 0, 0⟩ 0 = some (built2, []) := by
  simp [TrafficLightRouter.build, TrafficLightRouter.initialize, built2, blank]

/-- The scenario of C16: for the plan `[(10, G), (3, Y)]` in mode 0 the first four
firings happen at 10, 13, 23 and 26 and set the phases 1, 0, 1, 0. -/
theorem switch_cycle_witness :
    plan2 ≠ [] ∧ built2.TLLogicMode ≠ 2 ∧
    cyclicSum plan2 1 = 10 ∧ cyclicSum plan2 2 = 13 ∧ cyclicSum plan2 3 = 23 ∧
    cyclicSum plan2 4 = 26 ∧
    (deliverSwitch (fun _ => noVehicle) 4 built2 0 10).map
        (List.map fun f => (f.1, phasesSet f.2)) =
      some [(10, [1]), (13, [0]), (23, [1]), (26, [0])] := by
  have hne : plan2 ≠ [] := by simp [plan2]
  have hmode : built2.TLLogicMode ≠ 2 := by decide
  have c1 : cyclicSum plan2 1 = 10 := by
    norm_num [cyclicSum, Finset.sum_range_succ, plan2, durationAt]
  have c2 : cyclicSum plan2 2 = 13 := by
    norm_num [cyclicSum, Finset.sum_range_succ, plan2, durationAt]
  have c3 : cyclicSum plan2 3 = 23 := by
    norm_num [cyclicSum, Finset.sum_range_succ, plan2, durationAt]
  have c4 : cyclicSum plan2 4 = 26 := by
    norm_num [cyclicSum, Finset.sum_range_succ, plan2, durationAt]
  have hd : durationAt plan2 0 = 10 := by simp [plan2, durationAt]
  obtain ⟨firings, hf, hlen, hk⟩ := switch_cycle blank "n" "static" "0" 0 plan2 (netOf []) 0
    ⟨0, 0, 0, 0⟩ 0 built2 [] (fun _ => noVehicle) hne init_built2 hmode 4
  refine ⟨hne, hmode, c1, c2, c3, c4, ?_⟩
  rw [hd] at hf
  rw [hf]
  obtain ⟨e1, h1, p1, _⟩ := hk 1 (by decide) (by decide)
  obtain ⟨e2, h2, p2, _⟩ := hk 2 (by decide) (by decide)
  obtain ⟨e3, h3, p3, _⟩ := hk 3 (by decide) (by decide)
  obtain ⟨e4, h4, p4, _⟩ := hk 4 (by decide) (by decide)
  rw [c1] at h1
  rw [c2] at h2
  rw [c3] at h3
  rw [c4] at h4
  have l2 : plan2.length = 2 := rfl
  rw [l2] at p1 p2 p3 p4
  rcases firings with _ | ⟨a, _ | ⟨b, _ | ⟨c, _ | ⟨d, _ | ⟨e, l⟩⟩⟩⟩⟩ <;>
    simp only [List.length_nil, List.length_cons] at hlen <;> try omega
  simp only [Nat.sub_self, Nat.add_one_sub_one, List.getElem?_cons_zero,
    List.getElem?_cons_succ, Option.some.injEq] at h1 h2 h3 h4
  subst h1 h2 h3 h4
  simp [p1, p2, p3, p4]

end VENTOS
